import Mathlib

/-!
Verification of the resilient extraction-and-normalization engine of the
middleware health-check repository.

The Python sources embedded here are:
  * `src/wlst_health_checks.py`       (referred to below as the `src` variant)
  * `src/HC/wlst_health_checks.py`    (referred to below as the `HC` variant)
  * `src/middleware_healthcheck.py` and `src/HC/middleware_healthcheck.py`
    (the `run_wlst` payload-extraction tail)

JSON trees are modelled by the inductive type `Json`.  Python `dict`s are
modelled as insertion-ordered association lists (`List (Json × Json)`), with
`dictInsert` mirroring `d[k] = v` (overwrite keeps the original position,
otherwise append).  Dictionary keys are modelled as arbitrary `Json` values
because `normalize_collections` uses the raw value of a `name` field as a key,
which need not be a string.  JSON numbers are modelled as integers: no claim
involves floating-point data.  Python object identity and the `True == 1`
equality corner are not modelled; key comparison is structural equality,
which agrees with Python `==` on all data reachable from parsed JSON text in
the claims below.
-/

inductive Json where
  | null : Json
  | bool : Bool → Json
  | num : Int → Json
  | str : String → Json
  | arr : List Json → Json
  | obj : List (Json × Json) → Json
deriving Repr

mutual

/-- Structural equality test on `Json` (Python `==` on JSON-shaped data). -/
def jeq : Json → Json → Bool
  | .null, .null => true
  | .bool a, .bool b => a == b
  | .num a, .num b => a == b
  | .str a, .str b => a == b
  | .arr a, .arr b => jeqList a b
  | .obj a, .obj b => jeqFields a b
  | _, _ => false

def jeqList : List Json → List Json → Bool
  | [], [] => true
  | a :: as, b :: bs => jeq a b && jeqList as bs
  | _, _ => false

def jeqFields : List (Json × Json) → List (Json × Json) → Bool
  | [], [] => true
  | (k, v) :: as, (k', v') :: bs => jeq k k' && jeq v v' && jeqFields as bs
  | _, _ => false

end

/-- Python truthiness (`bool(x)`) restricted to JSON-shaped values:
`None`, `False`, `0`, `""`, `[]` and `{}` are falsy. -/
def jTruthy : Json → Bool
  | .null => false
  | .bool b => b
  | .num n => n != 0
  | .str s => s != ""
  | .arr l => !(l.isEmpty)
  | .obj l => !(l.isEmpty)

/-- Python `a or b` on JSON-shaped values. -/
def pyOr (a b : Json) : Json := if jTruthy a then a else b

/-- Lookup of a string key in an association list (Python `dict` lookup;
keys of a Python dict are unique, so first match suffices). -/
def getField : List (Json × Json) → String → Json
  | [], _ => .null
  | (k, v) :: rest, key => if jeq k (.str key) then v else getField rest key

/-- Python `item.get(key)`: `None` both when the key is absent and when the
stored value is `null` (the two are indistinguishable through `dict.get`).
In the sources `.get` is only ever applied to values known to be dicts. -/
def dget : Json → String → Json
  | .obj fields, key => getField fields key
  | _, _ => .null

/-- Python `d[k] = v` on an insertion-ordered dict: an existing key keeps its
position and gets the new value, a fresh key is appended. -/
def dictInsert : List (Json × Json) → Json → Json → List (Json × Json)
  | [], k, v => [(k, v)]
  | (k', v') :: rest, k, v =>
    if jeq k' k then (k', v) :: rest else (k', v') :: dictInsert rest k v

/-- Sequential insertion of key/value pairs into a dict, mirroring a Python
loop of `mapping[key] = value` statements (later duplicates overwrite). -/
def insertAll (m : List (Json × Json)) (ps : List (Json × Json)) : List (Json × Json) :=
  ps.foldl (fun acc p => dictInsert acc p.1 p.2) m

/-- Decimal digits of a natural number, exactly as Python's `"%d"` / `format`
renders a non-negative integer. -/
def natDigitsPy (n : Nat) : List Char :=
  if n < 10 then [Char.ofNat (48 + n)]
  else natDigitsPy (n / 10) ++ [Char.ofNat (48 + n % 10)]
termination_by n
decreasing_by
  exact Nat.div_lt_self (by omega) (by omega)

/-- Python `"%d" % n` for a natural number. -/
def natRepr (n : Nat) : String := String.mk (natDigitsPy n)

/-- Python `str(n)` for an integer. -/
def intRepr (n : Int) : String :=
  if n < 0 then "-" ++ natRepr n.natAbs else natRepr n.toNat

/-- Decoder used to prove `natDigitsPy` injective. -/
def decVal (cs : List Char) : Nat :=
  cs.foldl (fun a c => 10 * a + (c.toNat - 48)) 0

mutual

/-- Python `repr(x)` for JSON-shaped values (used by `str.format` on
containers; string escaping inside `repr` is not modelled, which is
irrelevant here because the sources only ever format scalars). -/
def pyRepr : Json → String
  | .null => "None"
  | .bool true => "True"
  | .bool false => "False"
  | .num n => intRepr n
  | .str s => "'" ++ s ++ "'"
  | .arr l => "[" ++ pyReprList l ++ "]"
  | .obj l => "\x7b" ++ pyReprFields l ++ "\x7d"

def pyReprList : List Json → String
  | [] => ""
  | [x] => pyRepr x
  | x :: rest => pyRepr x ++ ", " ++ pyReprList rest

def pyReprFields : List (Json × Json) → String
  | [] => ""
  | [(k, v)] => pyRepr k ++ ": " ++ pyRepr v
  | (k, v) :: rest => pyRepr k ++ ": " ++ pyRepr v ++ ", " ++ pyReprFields rest

end

/-- Python `str(x)` / `"{}".format(x)` for JSON-shaped values. -/
def pyStr : Json → String
  | .null => "None"
  | .bool true => "True"
  | .bool false => "False"
  | .num n => intRepr n
  | .str s => s
  | .arr l => pyRepr (.arr l)
  | .obj l => pyRepr (.obj l)

/-- The `key_getters` table of `normalize_collections`, collapsed: every named
getter except `composites` and `threads`, as well as the default getter, is
`item.get('name')` when applied to a dict (which is the only way the getter is
invoked).  The `src` and `HC` variants spell the getters differently
(`isinstance(item, dict) and item.get("name") or None` in `HC`) but agree on
dict arguments up to the subsequent `or`-fallback, since falsy getter results
are replaced by the synthetic key either way. -/
def keyGetter (ck : Json) (item : Json) : Json :=
  if jeq ck (.str ("composites")) then
    if jTruthy (dget item ("name")) then
      .str (pyStr (pyOr (dget item ("partition"))
              (pyOr (dget item ("partitionName")) (.str ("default"))))
            ++ "::" ++ pyStr (dget item ("name")))
    else .null
  else if jeq ck (.str ("threads")) then
    pyOr (dget item ("server")) (dget item ("name"))
  else dget item ("name")

/-- The synthetic fallback key `"{}_{}".format(current_key or 'item', index)`. -/
def synKey (ck : Json) (i : Nat) : Json :=
  .str (pyStr (pyOr ck (.str ("item"))) ++ "_" ++ natRepr i)

mutual

/-- Embedding of `normalize_collections` from `src/wlst_health_checks.py`
(lines 27-59).  A list becomes a dict: dict elements are keyed by the getter
result or the synthetic `<current_key or 'item'>_<index>` key (`index` counts
from 1, via `enumerate(value, start=1)`) and recursively normalized with no
`current_key`; non-dict elements are stored unchanged under the synthetic
key.  A dict is rebuilt with every value normalized under its key.  Scalars
pass through.  The `HC` variant (lines 134-183) differs only in passing
`current_key` into the recursive call on dict elements, where it is ignored
(`current_key` only affects list values), and in building the index by
`index += 1` before first use, which is the same 1-based count. -/
def normalize_collections (value : Json) (currentKey : Json) : Json :=
  match value with
  | .arr items => .obj (insertAll [] (normListPairs items currentKey 1))
  | .obj fields => .obj (normFields fields)
  | v => v

/-- The dict comprehension `{key: normalize_collections(child, key) ...}`
over the items of a dict (keys of a Python dict are unique, so sequential
re-insertion is a per-item map). -/
def normFields : List (Json × Json) → List (Json × Json)
  | [] => []
  | (k, v) :: rest => (k, normalize_collections v k) :: normFields rest

/-- The key/value pairs produced by the list branch of
`normalize_collections`, in iteration order, before dict insertion. -/
def normListPairs : List Json → Json → Nat → List (Json × Json)
  | [], _, _ => []
  | item :: rest, ck, i =>
    (match item with
     | .obj fields =>
       (pyOr (keyGetter ck (.obj fields)) (synKey ck i),
        normalize_collections (.obj fields) .null)
     | other => (synKey ck i, other)) :: normListPairs rest ck (i + 1)

end

mutual

/-- No Python list occurs anywhere among the values of `v` (keys are never
rewritten by `normalize_collections`, so they are unconstrained). -/
def listFree : Json → Bool
  | .arr _ => false
  | .obj fields => listFreeFields fields
  | _ => true

def listFreeFields : List (Json × Json) → Bool
  | [] => true
  | (_, v) :: rest => listFree v && listFreeFields rest

end

/-- Recognizer for the list constructor. -/
def Json.isArr : Json → Bool
  | .arr _ => true
  | _ => false

mutual

/-- No list occurs as a direct element of a list anywhere in `v`. -/
def noNestedList : Json → Bool
  | .arr items => noNestedListItems items
  | .obj fields => noNestedListFields fields
  | _ => true

def noNestedListItems : List Json → Bool
  | [] => true
  | item :: rest => !(item.isArr) && noNestedList item && noNestedListItems rest

def noNestedListFields : List (Json × Json) → Bool
  | [] => true
  | (_, v) :: rest => noNestedList v && noNestedListFields rest

end

/-- Recognizer for the dict constructor (`isinstance(item, dict)`). -/
def Json.isObj : Json → Bool
  | .obj _ => true
  | _ => false

/-- The top-level keys of a normalized mapping, in insertion order. -/
def jKeys : Json → List Json
  | .obj fields => fields.map Prod.fst
  | _ => []

/-- The process-wide per-category error counters of the HC variant
(`_error_counters`, `src/HC/wlst_health_checks.py` lines 103-111), all
initialized to zero. -/
def errorCounters0 : List (String × Nat) :=
  [("clusters", 0), ("managed_servers", 0), ("jms_servers", 0), ("threads", 0),
   ("datasources", 0), ("deployments", 0), ("composites", 0)]

/-- Python `_error_counters.get(check_type, 0)`. -/
def countersGet : List (String × Nat) → String → Nat
  | [], _ => 0
  | (k, v) :: rest, key => if k = key then v else countersGet rest key

/-- Python `_error_counters[check_type] = count`. -/
def countersSet : List (String × Nat) → String → Nat → List (String × Nat)
  | [], key, v => [(key, v)]
  | (k, v') :: rest, key, v =>
    if k = key then (k, v) :: rest else (k, v') :: countersSet rest key v

/-- HC `_get_error_key` (lines 114-117), with the mutated global counter
dict made an explicit argument and result. -/
def getErrorKey (counters : List (String × Nat)) (checkType : String) :
    String × List (String × Nat) :=
  let count := countersGet counters checkType + 1
  (checkType ++ "_error_" ++ natRepr count, countersSet counters checkType count)

/-- src `next_key` (lines 62-66): fallback key from the container size
(the container, a dict, always has `__len__`). -/
def next_key (pref : String) (container : List (Json × Json)) : String :=
  pref ++ "_" ++ natRepr (container.length + 1)

/-- A sequence of `_get_error_key` calls, returning each call's category
together with the key it produced. -/
def runErrorKeys (counters : List (String × Nat)) : List String → List (String × String)
  | [] => []
  | c :: rest =>
    (c, (getErrorKey counters c).1) :: runErrorKeys (getErrorKey counters c).2 rest

/-- The fixed check-name to section-key table (`key_map` in
`load_sample_payload`, identical in both variants). -/
def key_map : String → Option String
  | "cluster" => some ("clusters")
  | "jms" => some ("jmsServers")
  | "datasource" => some ("datasources")
  | "deployments" => some ("deployments")
  | "composites" => some ("composites")
  | "managed_servers" => some ("servers")
  | "threads" => some ("threads")
  | _ => none

/-- Python `key in payload` for a dict payload.  (On a non-dict payload the
sources would either raise or perform substring/element membership; the
fixture contract of the spec makes the payload a mapping, and every claim
below stays within dict payloads.) -/
def jHasKey : Json → String → Bool
  | .obj fields, key => fields.any (fun p => jeq p.1 (.str key))
  | _, _ => false

/-- Python `payload[k] = v` for a dict payload (raises on non-dicts, which
no claim below exercises; modelled as the identity there). -/
def jSet : Json → String → Json → Json
  | .obj fields, k, v => .obj (dictInsert fields (.str k) v)
  | other, _, _ => other

/-- Embedding of `load_sample_payload` after the file read and JSON parse:
`fixture = none` models an unset `WLST_SAMPLE_OUTPUT`, a missing file or an
unparseable one (all of which return `None`); `some raw` models the parsed
file content.  Mirrors `src/wlst_health_checks.py` lines 69-99 and
`src/HC/wlst_health_checks.py` lines 190-234, which agree extensionally:
`filtered or payload` in src equals HC's explicit early return, and the
falsy-check condition (`check is None` / `not check`) differs only for
inputs on which `key_map` is empty anyway. -/
def load_sample_payload (fixture : Option Json) (check : String) : Option Json :=
  match fixture with
  | none => none
  | some raw =>
    let payload := normalize_collections raw .null
    if check = "all" then some payload
    else
      match key_map check with
      | some targetKey =>
        if jHasKey payload targetKey then
          some (.obj [(.str targetKey, dget payload targetKey)])
        else some payload
      | none => some payload

/-- Outcome of the WLST `connect` global: missing from `globals()`, a
successful call, or a raised exception with message. -/
inductive ConnectBehavior where
  | absent : ConnectBehavior
  | ok : ConnectBehavior
  | raises : String → ConnectBehavior

/-- Python truthiness of an optional credential string. -/
def credTruthy : Option String → Bool
  | none => false
  | some s => s != ""

/-- An invocation the src variant aborts: the JSON printed before
`sys.exit(1)` and the exit code. -/
structure SrcExit where
  printed : Json
  code : Nat

/-- src `connect_if_available` (lines 114-127): missing credentials or a
missing `connect` global return `False`; a raised connect exception prints
an error JSON and exits the process with code 1. -/
def connect_if_available_src (username password adminUrl : Option String)
    (cb : ConnectBehavior) : Except SrcExit Bool :=
  if !(credTruthy username && credTruthy password && credTruthy adminUrl) then .ok false
  else
    match cb with
    | .absent => .ok false
    | .ok => .ok true
    | .raises msg =>
      .error ⟨.obj [(.str ("error"), .str ("Failed to connect via WLST: " ++ msg))], 1⟩

/-- HC `connect_if_available` (lines 261-277): same checks, but a raised
connect exception returns `False` instead of exiting ("Never raises"). -/
def connect_if_available_hc (username password adminUrl : Option String)
    (cb : ConnectBehavior) : Bool :=
  if !(credTruthy username && credTruthy password && credTruthy adminUrl) then false
  else
    match cb with
    | .absent => false
    | .ok => true
    | .raises _ => false

/-- What one section's backend enumeration did: the records it yielded
(already converted to field maps — the per-field `getattr` probing against
WLST MBeans is outside the extraction-and-normalization core), followed by
an optional exception raised after them (`none` = clean completion).  A
failure before any record is `([], some msg)`; per-item failures that the
HC variant swallows with inner `try/except: pass` simply do not contribute
a record. -/
def SectionRun := List Json × Option String

/-- The record-collection loop shared by the section fetchers: each entry
is stored under its `keyField` value when truthy, else under a
`<fallbackPref>_<len+1>` key (src `next_key`, HC `"%s_%d" % (pref, len+1)`,
identical arithmetic). -/
def collectByField (keyField fallbackPref : String) (entries : List Json) :
    List (Json × Json) :=
  entries.foldl
    (fun acc entry =>
      dictInsert acc (pyOr (dget entry keyField) (.str (next_key fallbackPref acc))) entry)
    []

/-- A src-variant section fetcher (`fetch_clusters`, `fetch_managed_servers`,
`fetch_threads`, `fetch_jms_servers`, `fetch_datasources`,
`fetch_deployments`): collect records; if the enumeration raised, append one
error record `{errField: 'ERROR', 'state': msg}` under
`next_key(errPref, container)`. -/
def fetchSection_src (keyField fallbackPref errPref errField : String)
    (run : SectionRun) : List (Json × Json) :=
  let collected := collectByField keyField fallbackPref run.1
  match run.2 with
  | none => collected
  | some msg =>
    dictInsert collected (.str (next_key errPref collected))
      (.obj [(.str errField, .str ("ERROR")), (.str ("state"), .str msg)])

def fetch_clusters_src (run : SectionRun) : List (Json × Json) :=
  fetchSection_src ("name") ("cluster") ("cluster_error") ("name") run

def fetch_managed_servers_src (run : SectionRun) : List (Json × Json) :=
  fetchSection_src ("name") ("server") ("server_error") ("name") run

/-- src `fetch_threads` keys pools by the runtime name, which is also the
record's `server` field; its error record carries `server: 'ERROR'`, not
`name` (line 246). -/
def fetch_threads_src (run : SectionRun) : List (Json × Json) :=
  fetchSection_src ("server") ("threadPool") ("thread_error") ("server") run

def fetch_jms_servers_src (run : SectionRun) : List (Json × Json) :=
  fetchSection_src ("name") ("jmsServer") ("jms_error") ("name") run

def fetch_datasources_src (run : SectionRun) : List (Json × Json) :=
  fetchSection_src ("name") ("datasource") ("datasource_error") ("name") run

def fetch_deployments_src (run : SectionRun) : List (Json × Json) :=
  fetchSection_src ("name") ("deployment") ("deployment_error") ("name") run

/-- src `fetch_composites` (lines 330-354): key `partition::name` when the
`name` field is truthy, otherwise `composite_<len+1>`; the enumerated
composite dict itself is stored.  (The `getRevision` probing is a no-op on
dict entries.) -/
def fetch_composites_src (run : SectionRun) : List (Json × Json) :=
  let collected := run.1.foldl
    (fun acc composite =>
      let key :=
        if jTruthy (dget composite ("name")) then
          Json.str (pyStr (pyOr (dget composite ("partition"))
              (pyOr (dget composite ("partitionName")) (.str ("default"))))
            ++ "::" ++ pyStr (dget composite ("name")))
        else Json.str (next_key ("composite") acc)
      dictInsert acc key composite)
    []
  match run.2 with
  | none => collected
  | some msg =>
    dictInsert collected (.str (next_key ("composite_error") collected))
      (.obj [(.str ("name"), .str ("ERROR")), (.str ("state"), .str msg)])

/-- An HC-variant section fetcher: same collection loop, but the error key
comes from `_get_error_key` on the process-wide counters, which are an
explicit argument and result here. -/
def fetchSection_hc (keyField fallbackPref category errField : String)
    (run : SectionRun) (tr : List (String × Nat)) :
    List (Json × Json) × List (String × Nat) :=
  let collected := collectByField keyField fallbackPref run.1
  match run.2 with
  | none => (collected, tr)
  | some msg =>
    (dictInsert collected (.str (getErrorKey tr category).1)
      (.obj [(.str errField, .str ("ERROR")), (.str ("state"), .str msg)]),
     (getErrorKey tr category).2)

def fetch_clusters_hc (run : SectionRun) (tr : List (String × Nat)) :
    List (Json × Json) × List (String × Nat) :=
  fetchSection_hc ("name") ("cluster") ("clusters") ("name") run tr

def fetch_managed_servers_hc (run : SectionRun) (tr : List (String × Nat)) :
    List (Json × Json) × List (String × Nat) :=
  fetchSection_hc ("name") ("server") ("managed_servers") ("name") run tr

/-- HC `fetch_threads` (lines 450-516): like the src variant, its error
record carries `server: 'ERROR'` rather than a `name` field (line 515). -/
def fetch_threads_hc (run : SectionRun) (tr : List (String × Nat)) :
    List (Json × Json) × List (String × Nat) :=
  fetchSection_hc ("server") ("threadPool") ("threads") ("server") run tr

def fetch_jms_servers_hc (run : SectionRun) (tr : List (String × Nat)) :
    List (Json × Json) × List (String × Nat) :=
  fetchSection_hc ("name") ("jmsServer") ("jms_servers") ("name") run tr

def fetch_datasources_hc (run : SectionRun) (tr : List (String × Nat)) :
    List (Json × Json) × List (String × Nat) :=
  fetchSection_hc ("name") ("datasource") ("datasources") ("name") run tr

def fetch_deployments_hc (run : SectionRun) (tr : List (String × Nat)) :
    List (Json × Json) × List (String × Nat) :=
  fetchSection_hc ("name") ("deployment") ("deployments") ("name") run tr

/-- HC `fetch_composites` (lines 687-736): fallback key `composite_<idx>`
from the 1-based enumeration index, unlike the container-size key of the
src variant. -/
def fetch_composites_hc (run : SectionRun) (tr : List (String × Nat)) :
    List (Json × Json) × List (String × Nat) :=
  let collected := (run.1.foldl
    (fun (st : List (Json × Json) × Nat) composite =>
      let idx := st.2 + 1
      let key :=
        if jTruthy (dget composite ("name")) then
          Json.str (pyStr (pyOr (dget composite ("partition"))
              (pyOr (dget composite ("partitionName")) (.str ("default"))))
            ++ "::" ++ pyStr (dget composite ("name")))
        else Json.str ("composite_" ++ natRepr idx)
      (dictInsert st.1 key composite, idx))
    ([], 0)).1
  match run.2 with
  | none => (collected, tr)
  | some msg =>
    (dictInsert collected (.str (getErrorKey tr ("composites")).1)
      (.obj [(.str ("name"), .str ("ERROR")), (.str ("state"), .str msg)]),
     (getErrorKey tr ("composites")).2)

/-- The seven per-category backend enumerations available to one `gather`
dispatch, in the fixed category order. -/
structure FetchEnv where
  clusters : SectionRun
  servers : SectionRun
  jmsServers : SectionRun
  threads : SectionRun
  datasources : SectionRun
  deployments : SectionRun
  composites : SectionRun

/-- Embedding of `gather` from `src/wlst_health_checks.py` (lines 357-396).
The `now` argument stands for `datetime.utcnow().isoformat() + 'Z'`.  An
`.error` result models the `sys.exit(1)` the src `connect_if_available`
performs when `connect` raises. -/
def gather_src (check : String) (username password adminUrl : Option String)
    (fixture : Option Json) (cb : ConnectBehavior) (env : FetchEnv) (now : String) :
    Except SrcExit Json :=
  match load_sample_payload fixture check with
  | some sample =>
    if !(jTruthy sample) then .ok (normalize_collections sample .null)
    else .ok (normalize_collections
        (jSet (jSet sample ("generatedAt") (.str now)) ("source") (.str ("sample"))) .null)
  | none =>
    match connect_if_available_src username password adminUrl cb with
    | .error e => .error e
    | .ok false =>
      .ok (normalize_collections (.obj [(.str ("error"),
        .str ("WLST runtime not available and no sample payload supplied"))]) .null)
    | .ok true =>
      if check = "cluster" then
        .ok (normalize_collections (.obj [(.str ("clusters"),
          .obj (fetch_clusters_src env.clusters))]) .null)
      else if check = "managed_servers" then
        .ok (normalize_collections (.obj [(.str ("servers"),
          .obj (fetch_managed_servers_src env.servers))]) .null)
      else if check = "jms" then
        .ok (normalize_collections (.obj [(.str ("jmsServers"),
          .obj (fetch_jms_servers_src env.jmsServers))]) .null)
      else if check = "threads" then
        .ok (normalize_collections (.obj [(.str ("threads"),
          .obj (fetch_threads_src env.threads))]) .null)
      else if check = "datasource" then
        .ok (normalize_collections (.obj [(.str ("datasources"),
          .obj (fetch_datasources_src env.datasources))]) .null)
      else if check = "deployments" then
        .ok (normalize_collections (.obj [(.str ("deployments"),
          .obj (fetch_deployments_src env.deployments))]) .null)
      else if check = "composites" then
        .ok (normalize_collections (.obj [(.str ("composites"),
          .obj (fetch_composites_src env.composites))]) .null)
      else
        .ok (normalize_collections (.obj [
          (.str ("clusters"), .obj (fetch_clusters_src env.clusters)),
          (.str ("servers"), .obj (fetch_managed_servers_src env.servers)),
          (.str ("jmsServers"), .obj (fetch_jms_servers_src env.jmsServers)),
          (.str ("threads"), .obj (fetch_threads_src env.threads)),
          (.str ("datasources"), .obj (fetch_datasources_src env.datasources)),
          (.str ("deployments"), .obj (fetch_deployments_src env.deployments)),
          (.str ("composites"), .obj (fetch_composites_src env.composites))]) .null)

/-- Embedding of `gather` from `src/HC/wlst_health_checks.py` (lines
743-790).  `domainOk` models `ensure_domain_runtime()` after connecting;
the error counters are threaded through the fetchers in the evaluation
order of the payload dict literal. -/
def gather_hc (check : String) (username password adminUrl : Option String)
    (fixture : Option Json) (cb : ConnectBehavior) (domainOk : Bool)
    (env : FetchEnv) (tr : List (String × Nat)) : Json :=
  match load_sample_payload fixture check with
  | some sample => normalize_collections sample .null
  | none =>
    if !(connect_if_available_hc username password adminUrl cb) then
      .obj [(.str ("error"),
        .str ("WLST runtime not available or connect() failed and no sample payload supplied"))]
    else if !domainOk then
      .obj [(.str ("error"), .str ("domainRuntime() not available after connect()"))]
    else if check = "cluster" then
      normalize_collections (.obj [(.str ("clusters"),
        .obj (fetch_clusters_hc env.clusters tr).1)]) .null
    else if check = "managed_servers" then
      normalize_collections (.obj [(.str ("servers"),
        .obj (fetch_managed_servers_hc env.servers tr).1)]) .null
    else if check = "jms" then
      normalize_collections (.obj [(.str ("jmsServers"),
        .obj (fetch_jms_servers_hc env.jmsServers tr).1)]) .null
    else if check = "threads" then
      normalize_collections (.obj [(.str ("threads"),
        .obj (fetch_threads_hc env.threads tr).1)]) .null
    else if check = "datasource" then
      normalize_collections (.obj [(.str ("datasources"),
        .obj (fetch_datasources_hc env.datasources tr).1)]) .null
    else if check = "deployments" then
      normalize_collections (.obj [(.str ("deployments"),
        .obj (fetch_deployments_hc env.deployments tr).1)]) .null
    else if check = "composites" then
      normalize_collections (.obj [(.str ("composites"),
        .obj (fetch_composites_hc env.composites tr).1)]) .null
    else
      let r1 := fetch_clusters_hc env.clusters tr
      let r2 := fetch_managed_servers_hc env.servers r1.2
      let r3 := fetch_jms_servers_hc env.jmsServers r2.2
      let r4 := fetch_threads_hc env.threads r3.2
      let r5 := fetch_datasources_hc env.datasources r4.2
      let r6 := fetch_deployments_hc env.deployments r5.2
      let r7 := fetch_composites_hc env.composites r6.2
      normalize_collections (.obj [
        (.str ("clusters"), .obj r1.1),
        (.str ("servers"), .obj r2.1),
        (.str ("jmsServers"), .obj r3.1),
        (.str ("threads"), .obj r4.1),
        (.str ("datasources"), .obj r5.1),
        (.str ("deployments"), .obj r6.1),
        (.str ("composites"), .obj r7.1)]) .null

/-- The finalization step of `main`: `payload = gather(...) or {}`, then
`generatedAt` and `check` are inserted only when absent
(`src/wlst_health_checks.py` lines 405-408, `src/HC/wlst_health_checks.py`
lines 817-827; `payload.setdefault('check', check)` in src is the same
guarded insertion HC spells with `if "check" not in payload`). -/
def finalize_payload (payload : Json) (now check : String) : Json :=
  let p := if jTruthy payload then payload else .obj []
  let p1 := if jHasKey p ("generatedAt") then p else jSet p ("generatedAt") (.str now)
  if jHasKey p1 ("check") then p1 else jSet p1 ("check") (.str check)

/-- An enumeration environment where every section yields nothing and
nothing fails. -/
def envEmpty : FetchEnv :=
  ⟨([], none), ([], none), ([], none), ([], none), ([], none), ([], none), ([], none)⟩

/-- JSON whitespace (space, tab, newline, carriage return). -/
def isJsonWs (c : Char) : Bool :=
  c == Char.ofNat 32 || c == Char.ofNat 9 || c == Char.ofNat 10 || c == Char.ofNat 13

/-- Python `str.strip()` whitespace: JSON whitespace plus vertical tab and
form feed. -/
def isPySpace (c : Char) : Bool :=
  isJsonWs c || c == Char.ofNat 11 || c == Char.ofNat 12

def skipWs (cs : List Char) : List Char := cs.dropWhile isJsonWs

/-- Python `payload.splitlines()` restricted to `\x0a` separators (the other
Unicode line boundaries Python also splits on do not occur in the modelled
outputs): splits on newlines and, unlike `splitOn`, emits no trailing empty
line for a trailing newline. -/
def splitGo : List Char → List Char → List (List Char)
  | acc, [] => [acc.reverse]
  | acc, c :: rest =>
    if c == Char.ofNat 10 then
      acc.reverse :: (match rest with
        | [] => []
        | _ :: _ => splitGo [] rest)
    else splitGo (c :: acc) rest

def splitLinesPy (s : String) : List String :=
  match s.data with
  | [] => []
  | cs => (splitGo [] cs).map String.mk

/-- Python `line.strip()`. -/
def pyStripS (s : String) : String :=
  String.mk (((s.data.dropWhile isPySpace).reverse.dropWhile isPySpace).reverse)

/-- Python `candidate.startswith('{') or candidate.startswith('[')`. -/
def startsBracket (s : String) : Bool :=
  match s.data with
  | [] => false
  | c :: _ => c == Char.ofNat 123 || c == Char.ofNat 91

def isDigitC (c : Char) : Bool := 48 ≤ c.toNat && c.toNat ≤ 57

def digitsVal (ds : List Char) : Nat := ds.foldl (fun a c => 10 * a + (c.toNat - 48)) 0

/-- Body of a JSON string after the opening quote, following the standard
decoder's escapes.  `\u` escapes are not modelled (no modelled output
contains them); this makes the parser fail where the standard decoder
would succeed, which no claim below exercises. -/
def parseStringBody : List Char → Option (List Char × List Char)
  | [] => none
  | c :: rest =>
    if c == Char.ofNat 34 then some ([], rest)
    else if c == Char.ofNat 92 then
      match rest with
      | [] => none
      | e :: rest' =>
        match (if e == Char.ofNat 34 then some (Char.ofNat 34)
          else if e == Char.ofNat 92 then some (Char.ofNat 92)
          else if e == Char.ofNat 47 then some (Char.ofNat 47)
          else if e == Char.ofNat 98 then some (Char.ofNat 8)
          else if e == Char.ofNat 102 then some (Char.ofNat 12)
          else if e == Char.ofNat 110 then some (Char.ofNat 10)
          else if e == Char.ofNat 114 then some (Char.ofNat 13)
          else if e == Char.ofNat 116 then some (Char.ofNat 9)
          else none) with
        | none => none
        | some m =>
          match parseStringBody rest' with
          | some (out, rem) => some (m :: out, rem)
          | none => none
    else
      match parseStringBody rest with
      | some (out, rem) => some (c :: out, rem)
      | none => none

/-- A JSON number restricted to integers, as the standard decoder accepts
them (no leading zeros); fractional or exponent parts are not modelled and
make the parser fail (no modelled output contains them). -/
def parseNumber (cs : List Char) : Option (Json × List Char) :=
  let neg := match cs with
    | c :: _ => c == Char.ofNat 45
    | [] => false
  let cs' := if neg then cs.tail else cs
  let ds := cs'.takeWhile isDigitC
  let rem := cs'.dropWhile isDigitC
  if ds.isEmpty then none
  else if 1 < ds.length && ds.head? == some (Char.ofNat 48) then none
  else
    match rem with
    | c :: _ =>
      if c == Char.ofNat 46 || c == Char.ofNat 101 || c == Char.ofNat 69 then none
      else some (.num (if neg then -(Int.ofNat (digitsVal ds)) else Int.ofNat (digitsVal ds)), rem)
    | [] => some (.num (if neg then -(Int.ofNat (digitsVal ds)) else Int.ofNat (digitsVal ds)), [])

mutual

/-- Recursive-descent model of the standard JSON decoder (`json.loads`)
on a character list, with fuel bounding the nesting depth. -/
def parseValue : Nat → List Char → Option (Json × List Char)
  | 0, _ => none
  | fuel + 1, cs =>
    match skipWs cs with
    | [] => none
    | c :: rest =>
      if c == Char.ofNat 34 then
        match parseStringBody rest with
        | some (out, rem) => some (.str (String.mk out), rem)
        | none => none
      else if c == Char.ofNat 123 then parseMembers fuel rest true []
      else if c == Char.ofNat 91 then parseItems fuel rest true []
      else
        match c :: rest with
        | 't' :: 'r' :: 'u' :: 'e' :: rem => some (.bool true, rem)
        | 'f' :: 'a' :: 'l' :: 's' :: 'e' :: rem => some (.bool false, rem)
        | 'n' :: 'u' :: 'l' :: 'l' :: rem => some (.null, rem)
        | other => parseNumber other

/-- Object members after the opening brace; duplicate keys overwrite, as in
the dict the standard decoder builds. -/
def parseMembers : Nat → List Char → Bool → List (Json × Json) → Option (Json × List Char)
  | 0, _, _, _ => none
  | fuel + 1, cs, first, acc =>
    match skipWs cs with
    | [] => none
    | c :: rest =>
      if first && c == Char.ofNat 125 then some (.obj acc, rest)
      else if c == Char.ofNat 34 then
        match parseStringBody rest with
        | none => none
        | some (kout, rem1) =>
          match skipWs rem1 with
          | [] => none
          | colon :: rem2 =>
            if colon == Char.ofNat 58 then
              match parseValue fuel rem2 with
              | none => none
              | some (v, rem3) =>
                match skipWs rem3 with
                | [] => none
                | cc :: rem4 =>
                  if cc == Char.ofNat 125 then
                    some (.obj (dictInsert acc (.str (String.mk kout)) v), rem4)
                  else if cc == Char.ofNat 44 then
                    parseMembers fuel rem4 false (dictInsert acc (.str (String.mk kout)) v)
                  else none
            else none
      else none

/-- Array items after the opening bracket. -/
def parseItems : Nat → List Char → Bool → List Json → Option (Json × List Char)
  | 0, _, _, _ => none
  | fuel + 1, cs, first, acc =>
    match skipWs cs with
    | [] => none
    | c :: rest =>
      if first && c == Char.ofNat 93 then some (.arr acc.reverse, rest)
      else
        match parseValue fuel (c :: rest) with
        | none => none
        | some (v, rem1) =>
          match skipWs rem1 with
          | [] => none
          | cc :: rem2 =>
            if cc == Char.ofNat 93 then some (.arr (v :: acc).reverse, rem2)
            else if cc == Char.ofNat 44 then parseItems fuel rem2 false (v :: acc)
            else none

end

/-- Model of `json.loads`: parse one value and require only whitespace
after it. -/
def jsonLoadsPy (s : String) : Option Json :=
  match parseValue (2 * s.data.length + 2) s.data with
  | some (v, rem) => if (skipWs rem).isEmpty then some v else none
  | none => none

/-- The reversed-line scan of `run_wlst`: find the last line whose stripped
content starts with a JSON bracket and decodes, scanning from the end. -/
def scanLines : List String → Option Json
  | [] => none
  | line :: rest =>
    let candidate := pyStripS line
    if startsBracket candidate then
      match jsonLoadsPy candidate with
      | some v => some v
      | none => scanLines rest
    else scanLines rest

/-- The payload-extraction tail of `run_wlst`
(`src/middleware_healthcheck.py` lines 105-118,
`src/HC/middleware_healthcheck.py` lines 137-150): scan the lines in
reverse for a decodable bracket-initial line, then fall back to decoding
the whole output; `none` models the `return None` taken after printing an
error (there is no `ExtractionError` anywhere in the sources). -/
def extract_payload (payload : String) : Option Json :=
  match scanLines (splitLinesPy payload).reverse with
  | some v => some v
  | none => jsonLoadsPy payload

/-! ### Verification -/

/-- Induction over `Json` with membership hypotheses for the list-shaped
constructors (the automatically generated recursor of the nested inductive
is awkward to use directly). -/
theorem Json.recMem (P : Json → Prop)
    (hnull : P .null) (hbool : ∀ b, P (.bool b)) (hnum : ∀ n, P (.num n))
    (hstr : ∀ s, P (.str s))
    (harr : ∀ l, (∀ x ∈ l, P x) → P (.arr l))
    (hobj : ∀ l, (∀ p ∈ l, P p.1 ∧ P p.2) → P (.obj l)) : ∀ j, P j
  | .null => hnull
  | .bool b => hbool b
  | .num n => hnum n
  | .str s => hstr s
  | .arr l => harr l (fun x hx =>
      Json.recMem P hnull hbool hnum hstr harr hobj x)
  | .obj l => hobj l (fun p hp =>
      ⟨Json.recMem P hnull hbool hnum hstr harr hobj p.1,
       Json.recMem P hnull hbool hnum hstr harr hobj p.2⟩)
termination_by j => sizeOf j
decreasing_by
  all_goals first
  | (have hxz : sizeOf x < sizeOf l := List.sizeOf_lt_of_mem hx
     simp only [Json.arr.sizeOf_spec]
     omega)
  | (have h := List.sizeOf_lt_of_mem hp
     have hps : sizeOf p = 1 + sizeOf p.1 + sizeOf p.2 := by
       obtain ⟨a, b⟩ := p
       simp <;> omega
     simp only [Json.obj.sizeOf_spec]
     omega)

theorem jeqList_iff (xs : List Json)
    (ih : ∀ x ∈ xs, ∀ b, jeq x b = true ↔ x = b) :
    ∀ ys, jeqList xs ys = true ↔ xs = ys := by
  induction xs with
  | nil => intro ys; cases ys <;> simp [jeqList]
  | cons a as ihl =>
    intro ys
    cases ys with
    | nil => simp [jeqList]
    | cons b bs =>
      have h1 := ih a (by simp)
      have h2 : ∀ x ∈ as, ∀ b, jeq x b = true ↔ x = b :=
        fun x hx => ih x (by simp [hx])
      simp [jeqList, h1 b, ihl h2 bs]

theorem jeqFields_iff (xs : List (Json × Json))
    (ih : ∀ p ∈ xs, (∀ b, jeq p.1 b = true ↔ p.1 = b) ∧ (∀ b, jeq p.2 b = true ↔ p.2 = b)) :
    ∀ ys, jeqFields xs ys = true ↔ xs = ys := by
  induction xs with
  | nil => intro ys; cases ys <;> simp [jeqFields]
  | cons a as ihl =>
    intro ys
    cases ys with
    | nil => simp [jeqFields]
    | cons b bs =>
      obtain ⟨k, v⟩ := a
      obtain ⟨k', v'⟩ := b
      have h1 := (ih (k, v) (by simp)).1
      have h2 := (ih (k, v) (by simp)).2
      have h3 : ∀ p ∈ as, (∀ b, jeq p.1 b = true ↔ p.1 = b) ∧ (∀ b, jeq p.2 b = true ↔ p.2 = b) :=
        fun p hp => ih p (by simp [hp])
      simp [jeqFields, h1 k', h2 v', ihl h3 bs, and_assoc]

theorem jeq_iff (a : Json) : ∀ b, jeq a b = true ↔ a = b := by
  induction a using Json.recMem with
  | hnull => intro b; cases b <;> simp [jeq]
  | hbool x => intro b; cases b <;> simp [jeq]
  | hnum x => intro b; cases b <;> simp [jeq]
  | hstr x => intro b; cases b <;> simp [jeq]
  | harr l ih =>
    intro b
    cases b <;> simp [jeq]
    exact jeqList_iff l ih _
  | hobj l ih =>
    intro b
    cases b <;> simp [jeq]
    exact jeqFields_iff l (fun p hp => ⟨(ih p hp).1, (ih p hp).2⟩) _

theorem jeq_refl (a : Json) : jeq a a = true := (jeq_iff a a).mpr rfl

theorem jeq_false_iff (a b : Json) : jeq a b = false ↔ a ≠ b := by
  constructor
  · intro h hab
    rw [hab, jeq_refl] at h
    exact Bool.noConfusion h
  · intro h
    cases hb : jeq a b
    · rfl
    · exact absurd ((jeq_iff a b).mp hb) h

theorem digit_toNat (d : Nat) (h : d < 10) : (Char.ofNat (48 + d)).toNat = 48 + d := by
  interval_cases d <;> decide

theorem decVal_aux (n : Nat) :
    ∀ a : Nat, (natDigitsPy n).foldl (fun a c => 10 * a + (c.toNat - 48)) a
      = a * 10 ^ (natDigitsPy n).length + n := by
  induction n using Nat.strong_induction_on with
  | _ n ih =>
    intro a
    by_cases h : n < 10
    · rw [natDigitsPy]
      simp only [h, if_true, List.foldl, List.length]
      rw [digit_toNat n h]
      omega
    · rw [natDigitsPy]
      simp only [h, if_false, List.foldl_append, List.length_append]
      have hlt : n / 10 < n := Nat.div_lt_self (by omega) (by omega)
      rw [ih (n / 10) hlt a]
      simp only [List.foldl, List.length]
      rw [digit_toNat (n % 10) (Nat.mod_lt n (by omega))]
      have : 48 + n % 10 - 48 = n % 10 := by omega
      rw [this]
      have hsplit : 10 * (n / 10) + n % 10 = n := Nat.div_add_mod n 10
      have hpow : 10 ^ ((natDigitsPy (n / 10)).length + 1)
          = 10 ^ (natDigitsPy (n / 10)).length * 10 := by
        rw [pow_succ]
      rw [hpow]
      ring_nf
      omega

theorem decVal_natDigitsPy (n : Nat) : decVal (natDigitsPy n) = n := by
  have := decVal_aux n 0
  simpa [decVal] using this

theorem natDigitsPy_injective : Function.Injective natDigitsPy := by
  intro m n h
  have hm := decVal_natDigitsPy m
  have hn := decVal_natDigitsPy n
  rw [h] at hm
  omega

theorem natRepr_injective : Function.Injective natRepr := by
  intro m n h
  apply natDigitsPy_injective
  have : (natRepr m).data = (natRepr n).data := by rw [h]
  simpa [natRepr] using this

theorem normFields_eq_self (fields : List (Json × Json))
    (h : ∀ p ∈ fields, normalize_collections p.2 p.1 = p.2) :
    normFields fields = fields := by
  induction fields with
  | nil => simp [normFields]
  | cons p rest ih =>
    obtain ⟨k, v⟩ := p
    rw [normFields]
    rw [h (k, v) (by simp)]
    rw [ih (fun q hq => h q (by simp [hq]))]

/-- A value containing no list is a fixed point of `normalize_collections`,
for every `current_key`. -/
theorem normalize_listFree (v : Json) :
    listFree v = true → ∀ ck, normalize_collections v ck = v := by
  induction v using Json.recMem with
  | hnull => intro _ _; rfl
  | hbool b => intro _ _; rfl
  | hnum n => intro _ _; rfl
  | hstr s => intro _ _; rfl
  | harr l ih => intro h; simp [listFree] at h
  | hobj l ih =>
    intro h ck
    simp only [listFree] at h
    rw [normalize_collections]
    rw [normFields_eq_self]
    intro p hp
    have hv : listFree p.2 = true := by
      clear ih
      induction l with
      | nil => simp at hp
      | cons q rest ihl =>
        obtain ⟨qk, qv⟩ := q
        rw [listFreeFields] at h
        rcases List.mem_cons.mp hp with heq | hmem
        · subst heq
          exact (Bool.and_eq_true _ _ |>.mp h).1
        · exact ihl (Bool.and_eq_true _ _ |>.mp h).2 hmem
    exact (ih p hp).2 hv p.1

theorem listFreeFields_append (xs ys : List (Json × Json)) :
    listFreeFields (xs ++ ys) = (listFreeFields xs && listFreeFields ys) := by
  induction xs with
  | nil => simp [listFreeFields]
  | cons p rest ih =>
    obtain ⟨k, v⟩ := p
    simp [listFreeFields, ih, Bool.and_assoc]

theorem dictInsert_listFree (m : List (Json × Json)) (k v : Json)
    (hm : listFreeFields m = true) (hv : listFree v = true) :
    listFreeFields (dictInsert m k v) = true := by
  induction m with
  | nil => simp [dictInsert, listFreeFields, hv]
  | cons p rest ih =>
    obtain ⟨k', v'⟩ := p
    rw [listFreeFields] at hm
    rw [dictInsert]
    by_cases hk : k' = k
    · rw [if_pos ((jeq_iff k' k).mpr hk)]
      rw [listFreeFields]
      simp [hv, (Bool.and_eq_true _ _ |>.mp hm).2]
    · rw [if_neg (fun hj => hk ((jeq_iff k' k).mp hj))]
      rw [listFreeFields]
      simp [(Bool.and_eq_true _ _ |>.mp hm).1,
        ih (Bool.and_eq_true _ _ |>.mp hm).2]

theorem insertAll_listFree (ps : List (Json × Json)) :
    ∀ m, listFreeFields m = true → (∀ p ∈ ps, listFree p.2 = true) →
    listFreeFields (insertAll m ps) = true := by
  induction ps with
  | nil => intro m hm _; simpa [insertAll] using hm
  | cons p rest ih =>
    intro m hm hps
    rw [insertAll] at *
    simp only [List.foldl_cons]
    exact ih _ (dictInsert_listFree m p.1 p.2 hm (hps p (by simp)))
      (fun q hq => hps q (by simp [hq]))

/-- Normalizing a value with no directly nested lists produces a list-free
value (every list has been rewritten into a dict, recursively). -/
theorem normalize_noNestedList_listFree (v : Json) :
    noNestedList v = true → ∀ ck, listFree (normalize_collections v ck) = true := by
  induction v using Json.recMem with
  | hnull => intro _ _; rfl
  | hbool b => intro _ _; rfl
  | hnum n => intro _ _; rfl
  | hstr s => intro _ _; rfl
  | harr l ih =>
    intro h ck
    rw [normalize_collections, listFree]
    apply insertAll_listFree _ _ (by rfl)
    rw [noNestedList] at h
    generalize hidx : 1 = i
    clear hidx
    induction l generalizing i with
    | nil => intro p hp; simp [normListPairs] at hp
    | cons item rest ihl =>
      intro p hp
      rw [noNestedListItems] at h
      simp only [Bool.and_eq_true, Bool.not_eq_true'] at h
      obtain ⟨⟨hna, hni⟩, hrest⟩ := h
      have hrec : ∀ q ∈ normListPairs rest ck (i + 1), listFree q.2 = true :=
        ihl (fun x hx => ih x (by simp [hx])) hrest (i + 1)
      cases item with
      | arr l₂ => simp [Json.isArr] at hna
      | obj fields =>
        simp only [normListPairs] at hp
        rcases List.mem_cons.mp hp with heq | hmem
        · subst heq
          exact (ih (.obj fields) (by simp)) hni .null
        · exact hrec p hmem
      | null =>
        simp only [normListPairs] at hp
        rcases List.mem_cons.mp hp with heq | hmem
        · subst heq; rfl
        · exact hrec p hmem
      | bool b =>
        simp only [normListPairs] at hp
        rcases List.mem_cons.mp hp with heq | hmem
        · subst heq; rfl
        · exact hrec p hmem
      | num n =>
        simp only [normListPairs] at hp
        rcases List.mem_cons.mp hp with heq | hmem
        · subst heq; rfl
        · exact hrec p hmem
      | str s =>
        simp only [normListPairs] at hp
        rcases List.mem_cons.mp hp with heq | hmem
        · subst heq; rfl
        · exact hrec p hmem
  | hobj l ih =>
    intro h ck
    rw [normalize_collections, listFree]
    rw [noNestedList] at h
    clear ck
    induction l with
    | nil => rfl
    | cons p rest ihl =>
      obtain ⟨k, v⟩ := p
      rw [noNestedListFields] at h
      rw [normFields, listFreeFields]
      simp only [Bool.and_eq_true]
      constructor
      · exact (ih (k, v) (by simp)).2 (Bool.and_eq_true _ _ |>.mp h).1 k
      · exact ihl (fun q hq => ih q (by simp [hq])) (Bool.and_eq_true _ _ |>.mp h).2

theorem dictInsert_fresh (m : List (Json × Json)) (k v : Json)
    (h : ∀ q ∈ m, q.1 ≠ k) : dictInsert m k v = m ++ [(k, v)] := by
  induction m with
  | nil => rfl
  | cons p rest ih =>
    obtain ⟨k', v'⟩ := p
    rw [dictInsert]
    rw [if_neg (fun hj => h (k', v') (by simp) ((jeq_iff k' k).mp hj))]
    rw [ih (fun q hq => h q (by simp [hq]))]
    simp

theorem insertAll_fresh (ps : List (Json × Json)) :
    ∀ m, (∀ p ∈ ps, ∀ q ∈ m, q.1 ≠ p.1) →
    (ps.map Prod.fst).Nodup → insertAll m ps = m ++ ps := by
  induction ps with
  | nil => intro m _ _; simp [insertAll]
  | cons p rest ih =>
    intro m hfresh hnd
    rw [insertAll] at *
    simp only [List.foldl_cons]
    rw [List.map_cons, List.nodup_cons] at hnd
    have step : dictInsert m p.1 p.2 = m ++ [p] := by
      rw [dictInsert_fresh m p.1 p.2 (fun q hq => hfresh p (by simp) q hq)]
    rw [step]
    have : insertAll (m ++ [p]) rest = (m ++ [p]) ++ rest := by
      rw [insertAll]
      apply ih (m ++ [p])
      · intro r hr q hq
        rcases List.mem_append.mp hq with hm | hp
        · exact hfresh r (by simp [hr]) q hm
        · have : q = p := by simpa using hp
          subst this
          intro hqr
          exact hnd.1 (by rw [hqr]; exact List.mem_map_of_mem Prod.fst hr)
      · exact hnd.2
    rw [insertAll] at this
    rw [this]
    simp

theorem normListPairs_fst (items : List Json) (ck : Json) :
    ∀ i, (∀ item ∈ items, jTruthy (keyGetter ck item) = false) →
    (normListPairs items ck i).map Prod.fst
      = (List.range items.length).map (fun j => synKey ck (i + j)) := by
  induction items with
  | nil => intro i _; simp [normListPairs]
  | cons item rest ih =>
    intro i h
    have hhead : jTruthy (keyGetter ck item) = false := h item (by simp)
    have htail := ih (i + 1) (fun x hx => h x (by simp [hx]))
    have hrange : List.range (item :: rest).length
        = 0 :: (List.range rest.length).map (· + 1) := by
      simp [List.length_cons, List.range_succ_eq_map]
    rw [hrange]
    cases item with
    | obj fields =>
      simp only [normListPairs, List.map_cons]
      rw [htail]
      simp only [pyOr, hhead, if_false]
      simp [List.map_map, Function.comp]
      intro j hj
      congr 1
      omega
    | arr l => simp only [normListPairs, List.map_cons]
               rw [htail]
               simp [List.map_map, Function.comp]
               intro j hj
               congr 1
               omega
    | null => simp only [normListPairs, List.map_cons]
              rw [htail]
              simp [List.map_map, Function.comp]
              intro j hj
              congr 1
              omega
    | bool b => simp only [normListPairs, List.map_cons]
                rw [htail]
                simp [List.map_map, Function.comp]
                intro j hj
                congr 1
                omega
    | num n => simp only [normListPairs, List.map_cons]
               rw [htail]
               simp [List.map_map, Function.comp]
               intro j hj
               congr 1
               omega
    | str s => simp only [normListPairs, List.map_cons]
               rw [htail]
               simp [List.map_map, Function.comp]
               intro j hj
               congr 1
               omega

theorem string_mk_append (a b : List Char) :
    String.mk a ++ String.mk b = String.mk (a ++ b) := rfl

theorem synKey_inj (ck : Json) {i j : Nat} (h : synKey ck i = synKey ck j) : i = j := by
  have hs : pyStr (pyOr ck (.str ("item"))) ++ "_" ++ natRepr i
      = pyStr (pyOr ck (.str ("item"))) ++ "_" ++ natRepr j := by
    simpa [synKey] using h
  have hd := congrArg String.data hs
  simp only [String.data_append] at hd
  have hdig : (natRepr i).data = (natRepr j).data :=
    List.append_cancel_left hd
  apply natDigitsPy_injective
  simpa [natRepr] using hdig

theorem normalize_obj_anyKey (fields : List (Json × Json)) (ck ck' : Json) :
    normalize_collections (.obj fields) ck = normalize_collections (.obj fields) ck' := by
  simp [normalize_collections]

theorem normListPairs_snd (items : List Json) (ck : Json) :
    ∀ i, (normListPairs items ck i).map Prod.snd
      = items.map (fun item => if item.isObj then normalize_collections item ck else item) := by
  induction items with
  | nil => intro i; simp [normListPairs]
  | cons item rest ih =>
    intro i
    cases item with
    | obj fields =>
      simp only [normListPairs, List.map_cons]
      rw [ih (i + 1)]
      simp [Json.isObj, normalize_obj_anyKey fields .null ck]
    | arr l =>
      simp only [normListPairs, List.map_cons]
      rw [ih (i + 1)]
      simp [Json.isObj]
    | null =>
      simp only [normListPairs, List.map_cons]
      rw [ih (i + 1)]
      simp [Json.isObj]
    | bool b =>
      simp only [normListPairs, List.map_cons]
      rw [ih (i + 1)]
      simp [Json.isObj]
    | num n =>
      simp only [normListPairs, List.map_cons]
      rw [ih (i + 1)]
      simp [Json.isObj]
    | str s =>
      simp only [normListPairs, List.map_cons]
      rw [ih (i + 1)]
      simp [Json.isObj]

theorem str_append_natRepr_inj (s : String) :
    Function.Injective (fun n : Nat => Json.str (s ++ natRepr n)) := by
  intro m n h
  have hs : s ++ natRepr m = s ++ natRepr n := Json.str.inj h
  have hd := congrArg String.data hs
  simp only [String.data_append] at hd
  exact natDigitsPy_injective (by simpa [natRepr] using List.append_cancel_left hd)

/-- C2: as stated, idempotence of `normalize_collections` fails on the code
for well-formed JSON containing a list directly inside a list: the inner
list is stored raw on the first pass and only converted to a dict on the
second pass.  At `x = [[]]` the first pass gives `{"item_1": []}` and the
second `{"item_1": {}}`. -/
theorem claim_C2_counterexample :
    normalize_collections (normalize_collections (.arr [.arr []]) .null) .null
      ≠ normalize_collections (.arr [.arr []]) .null := by
  simp [normalize_collections, normListPairs, normFields, insertAll, dictInsert,
    keyGetter, synKey, pyOr, jTruthy, dget, getField, pyStr, natRepr, natDigitsPy, jeq]

/-- C2 (amended): `normalize_collections` is idempotent at the top level
(`current_key = None`) for every well-formed JSON value in which no list
occurs as a direct element of a list. -/
theorem claim_C2_theorem (x : Json) (h : noNestedList x = true) :
    normalize_collections (normalize_collections x .null) .null
      = normalize_collections x .null :=
  normalize_listFree _ (normalize_noNestedList_listFree x h .null) .null

/-- Witness for C2 at the concrete input
`{"servers": [{"name": "a"}]}`. -/
theorem claim_C2_witness :
    noNestedList (.obj [(.str ("servers"), .arr [.obj [(.str ("name"), .str ("a"))]])]) = true
    ∧ normalize_collections (normalize_collections
        (.obj [(.str ("servers"), .arr [.obj [(.str ("name"), .str ("a"))]])]) .null) .null
      = normalize_collections
        (.obj [(.str ("servers"), .arr [.obj [(.str ("name"), .str ("a"))]])]) .null := by
  constructor
  · simp [noNestedList, noNestedListItems, noNestedListFields, Json.isArr]
  · exact claim_C2_theorem _ (by
      simp [noNestedList, noNestedListItems, noNestedListFields, Json.isArr])

/-- C3: as stated the claim is false: the synthetic fallback keys are
1-based, not 0-based.  A single-element list of identifier-less records
under `current_key="servers"` yields the key `servers_1`, not `servers_0`
(`enumerate(value, start=1)` in the `src` variant, `index += 1` before
first use in the `HC` variant). -/
theorem claim_C3_counterexample :
    jKeys (normalize_collections (.arr [.obj []]) (.str ("servers")))
      = [.str ("servers_1")]
    ∧ jKeys (normalize_collections (.arr [.obj []]) (.str ("servers")))
      ≠ [.str ("servers_0")] := by
  constructor <;>
    simp [normalize_collections, normListPairs, normFields, insertAll, dictInsert,
      keyGetter, synKey, pyOr, jTruthy, dget, getField, pyStr, natRepr, natDigitsPy,
      jeq, jKeys] <;> decide

/-- C3 (amended): for every list of `n` elements lacking identifying fields
(the key getter for `servers` yields a falsy value on each element),
normalization under `current_key="servers"` produces a mapping with exactly
`n` pairwise distinct keys `servers_1 .. servers_n`, built from the
element's 1-based ordinal. -/
theorem claim_C3_theorem (items : List Json)
    (h : ∀ item ∈ items, jTruthy (keyGetter (.str ("servers")) item) = false) :
    jKeys (normalize_collections (.arr items) (.str ("servers")))
      = (List.range items.length).map (fun j => .str (("servers_" : String) ++ natRepr (j + 1)))
    ∧ (jKeys (normalize_collections (.arr items) (.str ("servers")))).Nodup := by
  have hfst := normListPairs_fst items (.str ("servers")) 1 h
  have hsyn : ∀ j : Nat, synKey (.str ("servers")) (1 + j)
      = .str (("servers_" : String) ++ natRepr (j + 1)) := by
    intro j
    have h1 : 1 + j = j + 1 := by omega
    rw [h1]
    simp only [synKey, pyOr, jTruthy]
    norm_num
    congr 1
  have hnd : ((normListPairs items (.str ("servers")) 1).map Prod.fst).Nodup := by
    rw [hfst]
    apply List.Nodup.map _ (List.nodup_range _)
    intro a b hab
    have := synKey_inj (.str ("servers")) hab
    omega
  have hins : insertAll [] (normListPairs items (.str ("servers")) 1)
      = normListPairs items (.str ("servers")) 1 := by
    have := insertAll_fresh (normListPairs items (.str ("servers")) 1) []
      (by simp) hnd
    simpa using this
  have hkeys : jKeys (normalize_collections (.arr items) (.str ("servers")))
      = (normListPairs items (.str ("servers")) 1).map Prod.fst := by
    rw [normalize_collections, hins, jKeys]
  constructor
  · rw [hkeys, hfst]
    exact List.map_congr_left (fun j _ => hsyn j)
  · rw [hkeys]
    exact hnd

/-- Witness for C3 at the concrete input `[{}, {}]`. -/
theorem claim_C3_witness :
    jKeys (normalize_collections (.arr [.obj [], .obj []]) (.str ("servers")))
      = (List.range 2).map (fun j => .str (("servers_" : String) ++ natRepr (j + 1)))
    ∧ (jKeys (normalize_collections (.arr [.obj [], .obj []]) (.str ("servers")))).Nodup :=
  claim_C3_theorem [.obj [], .obj []]
    (by intro item h
        simp only [List.mem_cons, List.not_mem_nil, or_false] at h
        rcases h with rfl | rfl <;> simp [keyGetter, jeq, dget, getField, jTruthy])

/-- C4: as stated the claim is false: an element that is itself a list is
stored raw, without recursion.  At `[["x"]]` under `current_key="servers"`
the stored value is `["x"]`, not its normalization
`{"servers_1": "x"}`. -/
theorem claim_C4_counterexample :
    dget (normalize_collections (.arr [.arr [.str ("x")]]) (.str ("servers"))) ("servers_1")
      ≠ normalize_collections (.arr [.str ("x")]) (.str ("servers")) := by
  simp [normalize_collections, normListPairs, normFields, insertAll, dictInsert,
    keyGetter, synKey, pyOr, jTruthy, dget, getField, pyStr, natRepr, natDigitsPy, jeq]

/-- C4 (amended): when a list is converted into a mapping, a dict element's
stored value is its recursive normalization — equivalently under the
unchanged `current_key`, since `current_key` does not influence the
normalization of a dict (the `src` variant passes no key, the `HC` variant
passes `current_key`; both agree) — while a non-dict element (scalar or
list) is stored unchanged; for scalars this coincides with their recursive
normalization, which is the identity. -/
theorem claim_C4_theorem (items : List Json) (ck : Json) (i : Nat) :
    (normListPairs items ck i).map Prod.snd
      = items.map (fun item => if item.isObj then normalize_collections item ck else item)
    ∧ (∀ (fields : List (Json × Json)) (ck' ck'' : Json),
        normalize_collections (.obj fields) ck' = normalize_collections (.obj fields) ck'')
    ∧ (∀ ck' : Json, normalize_collections .null ck' = .null)
    ∧ (∀ (b : Bool) (ck' : Json), normalize_collections (.bool b) ck' = .bool b)
    ∧ (∀ (n : Int) (ck' : Json), normalize_collections (.num n) ck' = .num n)
    ∧ (∀ (s : String) (ck' : Json), normalize_collections (.str s) ck' = .str s) := by
  refine ⟨normListPairs_snd items ck i, normalize_obj_anyKey, ?_, ?_, ?_, ?_⟩ <;>
    intros <;> simp [normalize_collections]

theorem append_natRepr_inj (s : String) :
    Function.Injective (fun n : Nat => s ++ natRepr n) := by
  intro m n h
  have hd := congrArg String.data h
  simp only [String.data_append] at hd
  exact natDigitsPy_injective (by simpa [natRepr] using List.append_cancel_left hd)

theorem countersGet_set_self (m : List (String × Nat)) (k : String) (v : Nat) :
    countersGet (countersSet m k v) k = v := by
  induction m with
  | nil => simp [countersSet, countersGet]
  | cons p rest ih =>
    obtain ⟨k', v'⟩ := p
    by_cases hk : k' = k
    · simp [countersSet, countersGet, hk]
    · simp [countersSet, countersGet, hk, ih]

theorem countersGet_set_ne (m : List (String × Nat)) (k k' : String) (v : Nat)
    (h : k ≠ k') : countersGet (countersSet m k v) k' = countersGet m k' := by
  induction m with
  | nil => simp [countersSet, countersGet, h]
  | cons p rest ih =>
    obtain ⟨k'', v''⟩ := p
    by_cases hk : k'' = k
    · subst hk
      simp [countersSet, countersGet, h]
    · simp [countersSet, countersGet, hk, ih]

theorem runErrorKeys_filter (cs : List String) :
    ∀ (counters : List (String × Nat)) (c : String),
    ((runErrorKeys counters cs).filter (fun p => p.1 = c)).map Prod.snd
      = (List.range (cs.count c)).map
          (fun i => c ++ "_error_" ++ natRepr (countersGet counters c + i + 1)) := by
  induction cs with
  | nil => intro counters c; simp [runErrorKeys]
  | cons d rest ih =>
    intro counters c
    rw [runErrorKeys]
    by_cases hdc : d = c
    · subst hdc
      have hcount : (d :: rest).count d = rest.count d + 1 := by
        simp [List.count_cons]
      rw [hcount, List.range_succ_eq_map]
      simp only [List.filter_cons, List.map_cons, decide_eq_true_eq]
      rw [if_pos trivial]
      simp only [List.map_cons, List.map_map]
      apply congrArg₂ List.cons
      · simp [getErrorKey]
      · rw [ih (getErrorKey counters d).2 d]
        have hget : countersGet (getErrorKey counters d).2 d
            = countersGet counters d + 1 := by
          simp [getErrorKey, countersGet_set_self]
        rw [hget]
        apply List.map_congr_left
        intro i _
        simp only [Function.comp]
        congr 2
        omega
    · have hcount : (d :: rest).count c = rest.count c := by
        simp [List.count_cons, hdc]
      rw [hcount]
      simp only [List.filter_cons, decide_eq_true_eq]
      rw [if_neg hdc]
      rw [ih (getErrorKey counters d).2 c]
      have hget : countersGet (getErrorKey counters d).2 c = countersGet counters c := by
        simp only [getErrorKey]
        exact countersGet_set_ne counters d c _ hdc
      rw [hget]

theorem countersGet_init (c : String) : countersGet errorCounters0 c = 0 := by
  simp only [errorCounters0, countersGet]
  by_cases h1 : "clusters" = c
  · simp [h1]
  all_goals by_cases h2 : "managed_servers" = c
  all_goals by_cases h3 : "jms_servers" = c
  all_goals by_cases h4 : "threads" = c
  all_goals by_cases h5 : "datasources" = c
  all_goals by_cases h6 : "deployments" = c
  all_goals by_cases h7 : "composites" = c
  all_goals simp_all

/-- C5: as stated the claim fails for the `src` variant's error-key helper
`next_key`: the number is the container size plus one, not a per-category
call counter starting at 1.  With two records already collected, the first
error key for the category is `cluster_error_3`, not `cluster_error_1`. -/
theorem claim_C5_counterexample :
    next_key ("cluster_error") [(.str ("a"), .null), (.str ("b"), .null)] = "cluster_error_3"
    ∧ next_key ("cluster_error") [(.str ("a"), .null), (.str ("b"), .null)] ≠ "cluster_error_1" := by
  constructor <;> simp [next_key, natRepr, natDigitsPy]

/-- C5 (amended): the HC tracker `_get_error_key` never fails and, for every
category string and every call sequence, the keys issued for that category
are exactly `<category>_error_1 .. <category>_error_m` in order (`m` the
number of calls for that category), pairwise distinct and monotonically
numbered from 1. -/
theorem claim_C5_theorem (cs : List String) (c : String) :
    ((runErrorKeys errorCounters0 cs).filter (fun p => p.1 = c)).map Prod.snd
      = (List.range (cs.count c)).map (fun i => c ++ "_error_" ++ natRepr (i + 1))
    ∧ (((runErrorKeys errorCounters0 cs).filter (fun p => p.1 = c)).map Prod.snd).Nodup := by
  have h := runErrorKeys_filter cs errorCounters0 c
  rw [countersGet_init] at h
  have heq : ((runErrorKeys errorCounters0 cs).filter (fun p => p.1 = c)).map Prod.snd
      = (List.range (cs.count c)).map (fun i => c ++ "_error_" ++ natRepr (i + 1)) := by
    rw [h]
    apply List.map_congr_left
    intro i _
    congr 2
    omega
  refine ⟨heq, ?_⟩
  rw [heq]
  apply List.Nodup.map _ (List.nodup_range _)
  intro a b hab
  have := append_natRepr_inj (c ++ "_error_") hab
  omega

theorem jeq_str_iff (a : Json) (s : String) : jeq a (.str s) = true ↔ a = .str s :=
  jeq_iff a (.str s)

theorem getField_dictInsert_self (fields : List (Json × Json)) (k : String) (v : Json) :
    getField (dictInsert fields (.str k) v) k = v := by
  induction fields with
  | nil => simp [dictInsert, getField, jeq_refl]
  | cons p rest ih =>
    obtain ⟨k', v'⟩ := p
    rw [dictInsert]
    by_cases h : k' = .str k
    · rw [if_pos ((jeq_iff _ _).mpr h)]
      rw [getField, if_pos ((jeq_iff _ _).mpr h)]
    · rw [if_neg (fun hj => h ((jeq_iff _ _).mp hj))]
      rw [getField, if_neg (fun hj => h ((jeq_iff _ _).mp hj))]
      exact ih

theorem getField_dictInsert_ne (fields : List (Json × Json)) (k v : Json) (key : String)
    (h : k ≠ .str key) : getField (dictInsert fields k v) key = getField fields key := by
  induction fields with
  | nil =>
    simp only [dictInsert, getField]
    rw [if_neg (fun hj => h ((jeq_iff _ _).mp hj))]
  | cons p rest ih =>
    obtain ⟨k', v'⟩ := p
    rw [dictInsert]
    by_cases hk : k' = k
    · rw [if_pos ((jeq_iff _ _).mpr hk)]
      have hk' : k' ≠ .str key := by rw [hk]; exact h
      rw [getField, if_neg (fun hj => hk' ((jeq_iff _ _).mp hj))]
      rw [getField, if_neg (fun hj => hk' ((jeq_iff _ _).mp hj))]
    · rw [if_neg (fun hj => hk ((jeq_iff _ _).mp hj))]
      rw [getField]
      by_cases hkey : k' = .str key
      · rw [if_pos ((jeq_iff _ _).mpr hkey), getField, if_pos ((jeq_iff _ _).mpr hkey)]
      · rw [if_neg (fun hj => hkey ((jeq_iff _ _).mp hj))]
        rw [getField, if_neg (fun hj => hkey ((jeq_iff _ _).mp hj))]
        exact ih

theorem hasKey_dictInsert_ne (fields : List (Json × Json)) (k v : Json) (key : String)
    (h : k ≠ .str key) :
    (dictInsert fields k v).any (fun p => jeq p.1 (.str key))
      = fields.any (fun p => jeq p.1 (.str key)) := by
  induction fields with
  | nil =>
    simp [dictInsert, (jeq_false_iff k (.str key)).mpr h]
  | cons p rest ih =>
    obtain ⟨k', v'⟩ := p
    rw [dictInsert]
    by_cases hk : k' = k
    · rw [if_pos ((jeq_iff _ _).mpr hk)]
      simp only [List.any_cons]
    · rw [if_neg (fun hj => hk ((jeq_iff _ _).mp hj))]
      simp only [List.any_cons, ih]

theorem jTruthy_of_hasKey (fields : List (Json × Json)) (key : String)
    (h : jHasKey (.obj fields) key = true) : jTruthy (.obj fields) = true := by
  cases fields with
  | nil => simp [jHasKey] at h
  | cons p rest => simp [jTruthy]

/-- C9: `finalize` never overwrites a `generatedAt` or `check` field already
present in the gathered payload; the timestamp and requested-check
identifier are inserted only when the respective field is absent, and every
other field keeps its value. -/
theorem claim_C9_theorem (fields : List (Json × Json)) (now check : String) :
    (jHasKey (.obj fields) ("generatedAt") = true →
      dget (finalize_payload (.obj fields) now check) ("generatedAt")
        = dget (.obj fields) ("generatedAt"))
    ∧ (jHasKey (.obj fields) ("check") = true →
      dget (finalize_payload (.obj fields) now check) ("check")
        = dget (.obj fields) ("check"))
    ∧ (jTruthy (.obj fields) = true → jHasKey (.obj fields) ("generatedAt") = false →
      dget (finalize_payload (.obj fields) now check) ("generatedAt") = .str now)
    ∧ (jTruthy (.obj fields) = true → jHasKey (.obj fields) ("check") = false →
      dget (finalize_payload (.obj fields) now check) ("check") = .str check)
    ∧ (∀ k : String, k ≠ "generatedAt" → k ≠ "check" →
      dget (finalize_payload (.obj fields) now check) k = dget (.obj fields) k) := by
  have hne1 : (Json.str ("generatedAt")) ≠ .str ("check") := by simp
  have hne2 : (Json.str ("check")) ≠ .str ("generatedAt") := by simp
  refine ⟨?_, ?_, ?_, ?_, ?_⟩
  · intro hg
    have ht := jTruthy_of_hasKey fields _ hg
    simp only [finalize_payload, ht, if_true, hg]
    by_cases hc : jHasKey (.obj fields) ("check") = true
    · simp [hc]
    · simp only [Bool.not_eq_true] at hc
      simp only [hc, if_false, Bool.false_eq_true]
      simp only [jSet, dget]
      exact getField_dictInsert_ne fields _ _ _ hne2
  · intro hc
    have ht := jTruthy_of_hasKey fields _ hc
    simp only [finalize_payload, ht, if_true]
    by_cases hg : jHasKey (.obj fields) ("generatedAt") = true
    · simp only [hg, if_true, hc, if_true]
    · simp only [Bool.not_eq_true] at hg
      simp only [hg, Bool.false_eq_true, if_false]
      have hkeep : jHasKey (jSet (.obj fields) ("generatedAt") (.str now)) ("check")
          = jHasKey (.obj fields) ("check") := by
        simp only [jSet, jHasKey]
        exact hasKey_dictInsert_ne fields _ _ _ hne1
      rw [hkeep, hc, if_pos rfl]
      simp only [jSet, dget]
      exact getField_dictInsert_ne fields _ _ _ hne1
  · intro ht hg
    simp only [finalize_payload, ht, if_true, hg, Bool.false_eq_true, if_false]
    have hself : dget (jSet (.obj fields) ("generatedAt") (.str now)) ("generatedAt")
        = .str now := by
      simp only [jSet, dget]
      exact getField_dictInsert_self fields _ _
    by_cases hc : jHasKey (jSet (.obj fields) ("generatedAt") (.str now)) ("check") = true
    · simp only [hc, if_true]
      exact hself
    · simp only [Bool.not_eq_true] at hc
      simp only [hc, Bool.false_eq_true, if_false]
      rw [show jSet (jSet (.obj fields) ("generatedAt") (.str now)) ("check") (.str check)
          = .obj (dictInsert (dictInsert fields (.str ("generatedAt")) (.str now))
              (.str ("check")) (.str check)) from rfl]
      rw [dget, getField_dictInsert_ne _ _ _ _ hne2]
      simpa [jSet, dget] using hself
  · intro ht hc
    simp only [finalize_payload, ht, if_true]
    by_cases hg : jHasKey (.obj fields) ("generatedAt") = true
    · simp only [hg, if_true, hc, Bool.false_eq_true, if_false]
      simp only [jSet, dget]
      exact getField_dictInsert_self fields _ _
    · simp only [Bool.not_eq_true] at hg
      simp only [hg, Bool.false_eq_true, if_false]
      have hkeep : jHasKey (jSet (.obj fields) ("generatedAt") (.str now)) ("check")
          = jHasKey (.obj fields) ("check") := by
        simp only [jSet, jHasKey]
        exact hasKey_dictInsert_ne fields _ _ _ hne1
      rw [hkeep, hc, if_neg (by simp)]
      rw [show jSet (jSet (.obj fields) ("generatedAt") (.str now)) ("check") (.str check)
          = .obj (dictInsert (dictInsert fields (.str ("generatedAt")) (.str now))
              (.str ("check")) (.str check)) from rfl]
      rw [dget, getField_dictInsert_self]
  · intro k hk1 hk2
    have hne3 : (Json.str ("generatedAt")) ≠ .str k := by simp [Ne.symm hk1]
    have hne4 : (Json.str ("check")) ≠ .str k := by simp [Ne.symm hk2]
    by_cases ht : jTruthy (.obj fields) = true
    · simp only [finalize_payload, ht, if_true]
      by_cases hg : jHasKey (.obj fields) ("generatedAt") = true <;>
        by_cases hc : jHasKey (jSet (.obj fields) ("generatedAt") (.str now)) ("check") = true <;>
        by_cases hc' : jHasKey (.obj fields) ("check") = true <;>
        simp only [hg, hc, hc', if_true, if_false, Bool.false_eq_true, Bool.not_eq_true] <;>
        simp only [jSet, dget] <;>
        simp only [getField_dictInsert_ne _ _ _ _ hne3,
          getField_dictInsert_ne _ _ _ _ hne4]
    · simp only [Bool.not_eq_true] at ht
      have hfields : fields = [] := by
        cases fields with
        | nil => rfl
        | cons p rest => simp [jTruthy] at ht
      subst hfields
      simp [finalize_payload, jTruthy, jHasKey, jSet, dget, dictInsert, getField, jeq,
        Ne.symm hk1, Ne.symm hk2]

/-- Witness for C9: a fixture-shaped payload already carrying `generatedAt`,
`check` and a section key keeps all three through finalization. -/
theorem claim_C9_witness :
    dget (finalize_payload (.obj [(.str ("generatedAt"), .str ("T1")),
        (.str ("check"), .str ("cluster")), (.str ("clusters"), .obj [])])
        ("T2") ("all")) ("generatedAt")
      = dget (.obj [(.str ("generatedAt"), .str ("T1")),
        (.str ("check"), .str ("cluster")), (.str ("clusters"), .obj [])]) ("generatedAt")
    ∧ dget (finalize_payload (.obj [(.str ("generatedAt"), .str ("T1")),
        (.str ("check"), .str ("cluster")), (.str ("clusters"), .obj [])])
        ("T2") ("all")) ("check")
      = dget (.obj [(.str ("generatedAt"), .str ("T1")),
        (.str ("check"), .str ("cluster")), (.str ("clusters"), .obj [])]) ("check")
    ∧ dget (finalize_payload (.obj [(.str ("generatedAt"), .str ("T1")),
        (.str ("check"), .str ("cluster")), (.str ("clusters"), .obj [])])
        ("T2") ("all")) ("clusters")
      = dget (.obj [(.str ("generatedAt"), .str ("T1")),
        (.str ("check"), .str ("cluster")), (.str ("clusters"), .obj [])]) ("clusters") := by
  have h := claim_C9_theorem [(.str ("generatedAt"), .str ("T1")),
    (.str ("check"), .str ("cluster")), (.str ("clusters"), .obj [])] ("T2") ("all")
  refine ⟨h.1 (by simp [jHasKey, jeq]), h.2.1 (by simp [jHasKey, jeq]),
    h.2.2.2.2 ("clusters") (by simp) (by simp)⟩

theorem load_fixture_some (f : Json) (check : String) :
    ∃ s, load_sample_payload (some f) check = some s := by
  rw [load_sample_payload]
  by_cases hall : check = "all"
  · simp [hall]
  · simp only [hall, if_false]
    cases hk : key_map check with
    | none => simp
    | some tk =>
      by_cases hp : jHasKey (normalize_collections f .null) tk = true
      · simp [hp]
      · simp [hp]

theorem key_map_ne_all (check tk : String) (h : key_map check = some tk) :
    check ≠ "all" := by
  intro heq
  subst heq
  rw [show key_map ("all") = none from rfl] at h
  exact Option.noConfusion h

/-- C6: whenever a fixture loads, both gather variants never attempt the
backend connection (the result does not depend on the connect outcome, the
domain-runtime state, the backend enumerations, or the error counters); a
requested single-section check whose mapped key exists in the normalized
fixture yields only that key, and an absent mapped key yields the fixture
unfiltered. -/
theorem claim_C6_theorem :
    (∀ (check : String) (u p a : Option String) (f : Json) (cb cb' : ConnectBehavior)
      (env env' : FetchEnv) (now : String),
      gather_src check u p a (some f) cb env now
        = gather_src check u p a (some f) cb' env' now)
    ∧ (∀ (check : String) (u p a : Option String) (f : Json) (cb cb' : ConnectBehavior)
      (dom dom' : Bool) (env env' : FetchEnv) (tr tr' : List (String × Nat)),
      gather_hc check u p a (some f) cb dom env tr
        = gather_hc check u p a (some f) cb' dom' env' tr')
    ∧ (∀ (check : String) (u p a : Option String) (f : Json) (cb : ConnectBehavior)
      (env : FetchEnv) (now : String),
      ∃ payload, gather_src check u p a (some f) cb env now = .ok payload)
    ∧ (∀ (f : Json) (check tk : String), key_map check = some tk →
      jHasKey (normalize_collections f .null) tk = true →
      load_sample_payload (some f) check
        = some (.obj [(.str tk, dget (normalize_collections f .null) tk)]))
    ∧ (∀ (f : Json) (check tk : String), key_map check = some tk →
      jHasKey (normalize_collections f .null) tk = false →
      load_sample_payload (some f) check = some (normalize_collections f .null)) := by
  have hfilter_pos : ∀ (f : Json) (check tk : String), key_map check = some tk →
      jHasKey (normalize_collections f .null) tk = true →
      load_sample_payload (some f) check
        = some (.obj [(.str tk, dget (normalize_collections f .null) tk)]) := by
    intro f check tk hk hp
    rw [load_sample_payload]
    simp only [key_map_ne_all check tk hk, if_false, hk, hp, if_true]
  have hfilter_neg : ∀ (f : Json) (check tk : String), key_map check = some tk →
      jHasKey (normalize_collections f .null) tk = false →
      load_sample_payload (some f) check = some (normalize_collections f .null) := by
    intro f check tk hk hp
    rw [load_sample_payload]
    simp only [key_map_ne_all check tk hk, if_false, hk, hp, Bool.false_eq_true]
  refine ⟨?_, ?_, ?_, hfilter_pos, hfilter_neg⟩
  · intro check u p a f cb cb' env env' now
    obtain ⟨s, hs⟩ := load_fixture_some f check
    simp only [gather_src, hs]
  · intro check u p a f cb cb' dom dom' env env' tr tr'
    obtain ⟨s, hs⟩ := load_fixture_some f check
    simp only [gather_hc, hs]
  · intro check u p a f cb env now
    obtain ⟨s, hs⟩ := load_fixture_some f check
    simp only [gather_src, hs]
    by_cases ht : jTruthy s = true
    · simp [ht]
    · simp [ht]

/-- Witness for C6: check `"cluster"` against the fixture
`{"clusters": {"c1": {}}, "servers": {"s1": {}}}` returns only the
`clusters` key. -/
theorem claim_C6_witness :
    load_sample_payload
      (some (.obj [(.str ("clusters"), .obj [(.str ("c1"), .obj [])]),
        (.str ("servers"), .obj [(.str ("s1"), .obj [])])])) ("cluster")
      = some (.obj [(.str ("clusters"),
          dget (normalize_collections
            (.obj [(.str ("clusters"), .obj [(.str ("c1"), .obj [])]),
              (.str ("servers"), .obj [(.str ("s1"), .obj [])])]) .null) ("clusters"))]) := by
  exact claim_C6_theorem.2.2.2.1
    (.obj [(.str ("clusters"), .obj [(.str ("c1"), .obj [])]),
      (.str ("servers"), .obj [(.str ("s1"), .obj [])])]) ("cluster") ("clusters") rfl
    (by simp [normalize_collections, normFields, jHasKey, jeq])

/-- C7: as stated the claim is false for the src variant: when credentials
are present but the WLST `connect` call raises, `connect_if_available`
prints an error JSON and calls `sys.exit(1)` (lines 125-127), terminating
the process instead of returning an error payload. -/
theorem claim_C7_counterexample :
    gather_src ("all") (some ("u")) (some ("pw")) (some ("url")) none
      (.raises ("boom")) envEmpty ("T")
      = .error ⟨.obj [(.str ("error"), .str ("Failed to connect via WLST: boom"))], 1⟩ := by
  simp [gather_src, load_sample_payload, connect_if_available_src, credTruthy]

/-- C7 (amended): in live mode, absence of credentials or an unavailable
`connect` function degrades both variants to a returned `{"error": ...}`
payload; a raised `connect` exception also degrades the HC variant (its
`connect_if_available` returns `False` and never raises), but makes the src
variant print an error JSON and exit the process with code 1. -/
theorem claim_C7_theorem :
    (∀ (check : String) (u p a : Option String) (cb : ConnectBehavior)
      (env : FetchEnv) (now : String),
      connect_if_available_src u p a cb = .ok false →
      gather_src check u p a none cb env now
        = .ok (normalize_collections (.obj [(.str ("error"),
            .str ("WLST runtime not available and no sample payload supplied"))]) .null))
    ∧ (∀ (check : String) (u p a : Option String) (msg : String)
      (env : FetchEnv) (now : String),
      credTruthy u = true → credTruthy p = true → credTruthy a = true →
      gather_src check u p a none (.raises msg) env now
        = .error ⟨.obj [(.str ("error"),
            .str ("Failed to connect via WLST: " ++ msg))], 1⟩)
    ∧ (∀ (check : String) (u p a : Option String) (cb : ConnectBehavior)
      (dom : Bool) (env : FetchEnv) (tr : List (String × Nat)),
      connect_if_available_hc u p a cb = false →
      gather_hc check u p a none cb dom env tr
        = .obj [(.str ("error"),
            .str ("WLST runtime not available or connect() failed and no sample payload supplied"))])
    ∧ (∀ (u p a : Option String) (msg : String),
      connect_if_available_hc u p a (.raises msg) = false) := by
  refine ⟨?_, ?_, ?_, ?_⟩
  · intro check u p a cb env now h
    simp only [gather_src, load_sample_payload, h]
  · intro check u p a msg env now hu hp ha
    simp [gather_src, load_sample_payload, connect_if_available_src, hu, hp, ha]
  · intro check u p a cb dom env tr h
    simp only [gather_hc, load_sample_payload, h, Bool.not_false, if_true]
  · intro u p a msg
    rw [connect_if_available_hc]
    by_cases h : (credTruthy u && credTruthy p && credTruthy a) = true
    · simp [h]
    · simp only [Bool.not_eq_true] at h
      simp [h]

/-- Witness for C7 at concrete inputs: missing username (src and HC), and a
raising connect call (HC). -/
theorem claim_C7_witness :
    gather_src ("all") none (some ("pw")) (some ("url")) none .ok envEmpty ("T")
      = .ok (normalize_collections (.obj [(.str ("error"),
          .str ("WLST runtime not available and no sample payload supplied"))]) .null)
    ∧ gather_hc ("all") (some ("u")) (some ("pw")) (some ("url")) none
        (.raises ("boom")) true envEmpty errorCounters0
      = .obj [(.str ("error"),
          .str ("WLST runtime not available or connect() failed and no sample payload supplied"))]
    ∧ connect_if_available_hc (some ("u")) (some ("pw")) (some ("url")) (.raises ("boom")) = false := by
  refine ⟨claim_C7_theorem.1 ("all") none (some ("pw")) (some ("url")) .ok envEmpty ("T") rfl,
    claim_C7_theorem.2.2.1 ("all") (some ("u")) (some ("pw")) (some ("url")) (.raises ("boom"))
      true envEmpty errorCounters0
      (claim_C7_theorem.2.2.2 (some ("u")) (some ("pw")) (some ("url")) ("boom")),
    claim_C7_theorem.2.2.2 (some ("u")) (some ("pw")) (some ("url")) ("boom")⟩

/-- C8: as stated the claim is false for the threads fetchers: their error
record is `{"server": "ERROR", "state": msg}` (src line 246, HC line 515) —
it has no `name` field at all, so it is not the record
`{"name": "ERROR", "state": msg}` the claim requires of every fetcher. -/
theorem claim_C8_counterexample :
    (fetch_threads_hc ([], some ("boom")) errorCounters0).1
      = [(.str ("threads_error_1"),
          .obj [(.str ("server"), .str ("ERROR")), (.str ("state"), .str ("boom"))])]
    ∧ dget (.obj [(.str ("server"), .str ("ERROR")), (.str ("state"), .str ("boom"))])
        ("name") ≠ .str ("ERROR") := by
  constructor
  · simp [fetch_threads_hc, fetchSection_hc, collectByField, getErrorKey,
      countersGet, countersSet, errorCounters0, dictInsert, natRepr, natDigitsPy]
  · simp [dget, getField, jeq]

/-- C8 (amended): an exception raised during enumeration is never
propagated (the fetchers are total functions into record maps): the fetcher
returns every record collected before the failure plus exactly one
appended error record — `{"name": "ERROR", "state": msg}` for the cluster /
server / jms / datasource / deployment / composite fetchers, but
`{"server": "ERROR", "state": msg}` for the threads fetchers — under the
tracker key (HC) or the container-size key (src), provided that key is
fresh; and a sibling fetcher that succeeds in the same dispatch step is
unaffected: its result does not depend on the error-counter state another
fetcher's failure left behind, and equals its standalone collection. -/
theorem claim_C8_theorem :
    (∀ (entries : List Json) (msg : String) (tr : List (String × Nat)),
      (∀ q ∈ collectByField ("name") ("server") entries,
        q.1 ≠ .str (getErrorKey tr ("managed_servers")).1) →
      (fetch_managed_servers_hc (entries, some msg) tr).1
        = collectByField ("name") ("server") entries
          ++ [(.str (getErrorKey tr ("managed_servers")).1,
              .obj [(.str ("name"), .str ("ERROR")), (.str ("state"), .str msg)])]
      ∧ (fetch_managed_servers_hc (entries, some msg) tr).1.length
        = (collectByField ("name") ("server") entries).length + 1)
    ∧ (∀ (entries : List Json) (msg : String),
      (∀ q ∈ collectByField ("name") ("cluster") entries,
        q.1 ≠ .str (next_key ("cluster_error") (collectByField ("name") ("cluster") entries))) →
      fetch_clusters_src (entries, some msg)
        = collectByField ("name") ("cluster") entries
          ++ [(.str (next_key ("cluster_error") (collectByField ("name") ("cluster") entries)),
              .obj [(.str ("name"), .str ("ERROR")), (.str ("state"), .str msg)])])
    ∧ (∀ (entries : List Json) (tr tr' : List (String × Nat)),
      (fetch_datasources_hc (entries, none) tr).1
        = (fetch_datasources_hc (entries, none) tr').1
      ∧ (fetch_datasources_hc (entries, none) tr).1
        = collectByField ("name") ("datasource") entries)
    ∧ (∀ (entries : List Json),
      fetch_datasources_src (entries, none)
        = collectByField ("name") ("datasource") entries) := by
  refine ⟨?_, ?_, ?_, ?_⟩
  · intro entries msg tr hfresh
    have h : (fetch_managed_servers_hc (entries, some msg) tr).1
        = dictInsert (collectByField ("name") ("server") entries)
            (.str (getErrorKey tr ("managed_servers")).1)
            (.obj [(.str ("name"), .str ("ERROR")), (.str ("state"), .str msg)]) := rfl
    rw [h, dictInsert_fresh _ _ _ hfresh]
    constructor
    · rfl
    · simp
  · intro entries msg hfresh
    have h : fetch_clusters_src (entries, some msg)
        = dictInsert (collectByField ("name") ("cluster") entries)
            (.str (next_key ("cluster_error") (collectByField ("name") ("cluster") entries)))
            (.obj [(.str ("name"), .str ("ERROR")), (.str ("state"), .str msg)]) := rfl
    rw [h, dictInsert_fresh _ _ _ hfresh]
  · intro entries tr tr'
    exact ⟨rfl, rfl⟩
  · intro entries
    rfl

/-- Witness for C8: a server fetcher that yielded two named records and then
raised returns those two records plus exactly one ERROR record. -/
theorem claim_C8_witness :
    (fetch_managed_servers_hc
        ([.obj [(.str ("name"), .str ("s1"))], .obj [(.str ("name"), .str ("s2"))]],
          some ("boom")) errorCounters0).1
      = collectByField ("name") ("server")
          [.obj [(.str ("name"), .str ("s1"))], .obj [(.str ("name"), .str ("s2"))]]
        ++ [(.str (getErrorKey errorCounters0 ("managed_servers")).1,
            .obj [(.str ("name"), .str ("ERROR")), (.str ("state"), .str ("boom"))])]
    ∧ (fetch_managed_servers_hc
        ([.obj [(.str ("name"), .str ("s1"))], .obj [(.str ("name"), .str ("s2"))]],
          some ("boom")) errorCounters0).1.length
      = (collectByField ("name") ("server")
          [.obj [(.str ("name"), .str ("s1"))], .obj [(.str ("name"), .str ("s2"))]]).length + 1 :=
  claim_C8_theorem.1
    [.obj [(.str ("name"), .str ("s1"))], .obj [(.str ("name"), .str ("s2"))]]
    ("boom") errorCounters0
    (by
      have h1 : collectByField ("name") ("server")
          [.obj [(.str ("name"), .str ("s1"))], .obj [(.str ("name"), .str ("s2"))]]
          = [(.str ("s1"), .obj [(.str ("name"), .str ("s1"))]),
             (.str ("s2"), .obj [(.str ("name"), .str ("s2"))])] := by
        simp [collectByField, dget, getField, jeq, pyOr, jTruthy, dictInsert]
      have h2 : (getErrorKey errorCounters0 ("managed_servers")).1
          = "managed_servers_error_1" := by
        simp [getErrorKey, countersGet, errorCounters0, natRepr, natDigitsPy]
      rw [h1, h2]
      intro q hq
      simp only [List.mem_cons, List.not_mem_nil, or_false] at hq
      rcases hq with rfl | rfl <;> simp)

theorem normFields_fst (fields : List (Json × Json)) :
    (normFields fields).map Prod.fst = fields.map Prod.fst := by
  induction fields with
  | nil => rfl
  | cons p rest ih =>
    obtain ⟨k, v⟩ := p
    rw [normFields]
    simp [ih]

theorem jKeys_normalize_obj (fields : List (Json × Json)) (ck : Json) :
    jKeys (normalize_collections (.obj fields) ck) = fields.map Prod.fst := by
  rw [normalize_collections, jKeys, normFields_fst]

/-- C10: in live mode with no fixture, an unrecognized check name falls
through every single-section branch of `gather` and behaves exactly like
`"all"` (which is itself just another fall-through value): all seven
fetchers run in the fixed category order and their results are merged under
the seven section keys, so an unknown check is never rejected and never
yields an empty payload. -/
theorem claim_C10_theorem (check : String) (u p a : Option String) (cb : ConnectBehavior)
    (dom : Bool) (env : FetchEnv) (now : String) (tr : List (String × Nat))
    (h1 : check ≠ "cluster") (h2 : check ≠ "managed_servers") (h3 : check ≠ "jms")
    (h4 : check ≠ "threads") (h5 : check ≠ "datasource") (h6 : check ≠ "deployments")
    (h7 : check ≠ "composites") :
    gather_src check u p a none cb env now = gather_src ("all") u p a none cb env now
    ∧ gather_hc check u p a none cb dom env tr = gather_hc ("all") u p a none cb dom env tr
    ∧ (connect_if_available_src u p a cb = .ok true →
        ∃ payload, gather_src check u p a none cb env now = .ok payload
          ∧ jKeys payload = [.str ("clusters"), .str ("servers"), .str ("jmsServers"),
              .str ("threads"), .str ("datasources"), .str ("deployments"), .str ("composites")]
          ∧ jTruthy payload = true)
    ∧ (connect_if_available_hc u p a cb = true → dom = true →
        jKeys (gather_hc check u p a none cb dom env tr)
          = [.str ("clusters"), .str ("servers"), .str ("jmsServers"), .str ("threads"),
             .str ("datasources"), .str ("deployments"), .str ("composites")]
        ∧ jTruthy (gather_hc check u p a none cb dom env tr) = true) := by
  refine ⟨?_, ?_, ?_, ?_⟩
  · simp only [gather_src, load_sample_payload]
    cases connect_if_available_src u p a cb with
    | error e => rfl
    | ok b =>
      cases b
      · rfl
      · simp only [if_neg h1, if_neg h2, if_neg h3, if_neg h4, if_neg h5, if_neg h6,
          if_neg h7]
        simp
  · simp only [gather_hc, load_sample_payload]
    by_cases hc : connect_if_available_hc u p a cb = true
    · simp only [hc]
      by_cases hd : dom = true
      · subst hd
        simp only [if_neg h1, if_neg h2, if_neg h3, if_neg h4, if_neg h5, if_neg h6,
          if_neg h7]
        simp
      · simp only [Bool.not_eq_true] at hd
        subst hd
        rfl
    · simp only [Bool.not_eq_true] at hc
      simp only [hc]
      rfl
  · intro hcb
    refine ⟨normalize_collections (.obj [
        (.str ("clusters"), .obj (fetch_clusters_src env.clusters)),
        (.str ("servers"), .obj (fetch_managed_servers_src env.servers)),
        (.str ("jmsServers"), .obj (fetch_jms_servers_src env.jmsServers)),
        (.str ("threads"), .obj (fetch_threads_src env.threads)),
        (.str ("datasources"), .obj (fetch_datasources_src env.datasources)),
        (.str ("deployments"), .obj (fetch_deployments_src env.deployments)),
        (.str ("composites"), .obj (fetch_composites_src env.composites))]) .null,
      ?_, ?_, ?_⟩
    · simp only [gather_src, load_sample_payload, hcb]
      simp only [if_neg h1, if_neg h2, if_neg h3, if_neg h4, if_neg h5, if_neg h6,
        if_neg h7]
    · rw [jKeys_normalize_obj]
      rfl
    · rw [normalize_collections]
      simp [normFields, jTruthy]
  · intro hcb hd
    subst hd
    have hg : gather_hc check u p a none cb true env tr
        = normalize_collections (.obj [
            (.str ("clusters"), .obj (fetch_clusters_hc env.clusters tr).1),
            (.str ("servers"), .obj (fetch_managed_servers_hc env.servers
              (fetch_clusters_hc env.clusters tr).2).1),
            (.str ("jmsServers"), .obj (fetch_jms_servers_hc env.jmsServers
              (fetch_managed_servers_hc env.servers
                (fetch_clusters_hc env.clusters tr).2).2).1),
            (.str ("threads"), .obj (fetch_threads_hc env.threads
              (fetch_jms_servers_hc env.jmsServers
                (fetch_managed_servers_hc env.servers
                  (fetch_clusters_hc env.clusters tr).2).2).2).1),
            (.str ("datasources"), .obj (fetch_datasources_hc env.datasources
              (fetch_threads_hc env.threads
                (fetch_jms_servers_hc env.jmsServers
                  (fetch_managed_servers_hc env.servers
                    (fetch_clusters_hc env.clusters tr).2).2).2).2).1),
            (.str ("deployments"), .obj (fetch_deployments_hc env.deployments
              (fetch_datasources_hc env.datasources
                (fetch_threads_hc env.threads
                  (fetch_jms_servers_hc env.jmsServers
                    (fetch_managed_servers_hc env.servers
                      (fetch_clusters_hc env.clusters tr).2).2).2).2).2).1),
            (.str ("composites"), .obj (fetch_composites_hc env.composites
              (fetch_deployments_hc env.deployments
                (fetch_datasources_hc env.datasources
                  (fetch_threads_hc env.threads
                    (fetch_jms_servers_hc env.jmsServers
                      (fetch_managed_servers_hc env.servers
                        (fetch_clusters_hc env.clusters tr).2).2).2).2).2).2).1)]) .null := by
      simp only [gather_hc, load_sample_payload, hcb]
      simp only [if_neg h1, if_neg h2, if_neg h3, if_neg h4, if_neg h5, if_neg h6,
        if_neg h7]
      simp
    rw [hg]
    constructor
    · rw [jKeys_normalize_obj]
      rfl
    · rw [normalize_collections]
      simp [normFields, jTruthy]

/-- Witness for C10 at the unknown check name `"bogus"` with a successful
live connection. -/
theorem claim_C10_witness :
    gather_src ("bogus") (some ("u")) (some ("pw")) (some ("url")) none .ok envEmpty ("T")
      = gather_src ("all") (some ("u")) (some ("pw")) (some ("url")) none .ok envEmpty ("T")
    ∧ gather_hc ("bogus") (some ("u")) (some ("pw")) (some ("url")) none .ok true envEmpty
        errorCounters0
      = gather_hc ("all") (some ("u")) (some ("pw")) (some ("url")) none .ok true envEmpty
        errorCounters0
    ∧ (∃ payload,
        gather_src ("bogus") (some ("u")) (some ("pw")) (some ("url")) none .ok envEmpty ("T")
          = .ok payload
        ∧ jKeys payload = [.str ("clusters"), .str ("servers"), .str ("jmsServers"),
            .str ("threads"), .str ("datasources"), .str ("deployments"), .str ("composites")]
        ∧ jTruthy payload = true)
    ∧ (jKeys (gather_hc ("bogus") (some ("u")) (some ("pw")) (some ("url")) none .ok true
          envEmpty errorCounters0)
        = [.str ("clusters"), .str ("servers"), .str ("jmsServers"), .str ("threads"),
           .str ("datasources"), .str ("deployments"), .str ("composites")]
      ∧ jTruthy (gather_hc ("bogus") (some ("u")) (some ("pw")) (some ("url")) none .ok true
          envEmpty errorCounters0) = true) := by
  have h := claim_C10_theorem ("bogus") (some ("u")) (some ("pw")) (some ("url")) .ok true
    envEmpty ("T") errorCounters0
    (by decide) (by decide) (by decide) (by decide) (by decide) (by decide) (by decide)
  exact ⟨h.1, h.2.1,
    h.2.2.1 (by simp [connect_if_available_src, credTruthy]),
    h.2.2.2 (by simp [connect_if_available_hc, credTruthy]) rfl⟩

theorem mem_of_mem_dropWhile {α : Type} (p : α → Bool) (l : List α) (c : α)
    (h : c ∈ l.dropWhile p) : c ∈ l := by
  induction l with
  | nil => simpa [List.dropWhile] using h
  | cons a rest ih =>
    rw [List.dropWhile] at h
    by_cases hp : p a = true
    · simp only [hp, if_true] at h
      exact List.mem_cons_of_mem a (ih h)
    · simp only [Bool.not_eq_true] at hp
      simp only [hp, Bool.false_eq_true, if_false] at h
      exact h

theorem mem_of_mem_strip (s : String) (c : Char) (h : c ∈ (pyStripS s).data) :
    c ∈ s.data := by
  simp only [pyStripS] at h
  have h1 : c ∈ (s.data.dropWhile isPySpace).reverse.dropWhile isPySpace := by
    simpa using h
  have h2 := mem_of_mem_dropWhile isPySpace _ c h1
  rw [List.mem_reverse] at h2
  exact mem_of_mem_dropWhile isPySpace _ c h2

theorem splitGo_chars (cs : List Char) :
    ∀ (acc : List Char) (l : List Char), l ∈ splitGo acc cs →
    ∀ c ∈ l, c ∈ acc ∨ c ∈ cs := by
  induction cs with
  | nil =>
    intro acc l hl c hc
    simp only [splitGo, List.mem_singleton] at hl
    subst hl
    exact Or.inl (List.mem_reverse.mp hc)
  | cons a rest ih =>
    intro acc l hl c hc
    rw [splitGo.eq_def] at hl
    by_cases ha : (a == Char.ofNat 10) = true
    · simp only [ha, if_true] at hl
      rcases List.mem_cons.mp hl with heq | hmem
      · subst heq
        exact Or.inl (List.mem_reverse.mp hc)
      · cases rest with
        | nil => simp at hmem
        | cons b rest' =>
          rcases ih [] l hmem c hc with hin | hin
          · simp at hin
          · exact Or.inr (List.mem_cons_of_mem a hin)
    · simp only [Bool.not_eq_true] at ha
      simp only [ha, Bool.false_eq_true, if_false] at hl
      rcases ih (a :: acc) l hl c hc with hin | hin
      · rcases List.mem_cons.mp hin with heq | hmem
        · subst heq
          exact Or.inr (List.mem_cons_self _ _)
        · exact Or.inl hmem
      · exact Or.inr (List.mem_cons_of_mem a hin)

theorem startsBracket_char (s : String) (h : startsBracket s = true) :
    Char.ofNat 123 ∈ s.data ∨ Char.ofNat 91 ∈ s.data := by
  rw [startsBracket] at h
  cases hd : s.data with
  | nil => rw [hd] at h; exact Bool.noConfusion h
  | cons c rest =>
    rw [hd] at h
    simp only [Bool.or_eq_true, beq_iff_eq] at h
    rcases h with h | h
    · left; rw [← h]; exact List.mem_cons_self _ _
    · right; rw [← h]; exact List.mem_cons_self _ _

theorem scanLines_skip (ls : List String)
    (h : ∀ l ∈ ls, startsBracket (pyStripS l) = false ∨ jsonLoadsPy (pyStripS l) = none) :
    ∀ ls', scanLines (ls ++ ls') = scanLines ls' := by
  induction ls with
  | nil => intro ls'; simp
  | cons a rest ih =>
    intro ls'
    rw [List.cons_append, scanLines]
    rcases h a (by simp) with hb | hj
    · simp only [hb, Bool.false_eq_true, if_false]
      exact ih (fun l hl => h l (by simp [hl])) ls'
    · by_cases hb : startsBracket (pyStripS a) = true
      · simp only [hb, if_true, hj]
        exact ih (fun l hl => h l (by simp [hl])) ls'
      · simp only [Bool.not_eq_true] at hb
        simp only [hb, Bool.false_eq_true, if_false]
        exact ih (fun l hl => h l (by simp [hl])) ls'

/-- C1: as stated the claim fails on the code in both halves.  A raw output
consisting of a banner line followed by a pretty-printed multi-line JSON
object and a trailing blank line — whose embedded document is valid JSON,
as the second conjunct shows — extracts to `none`: the reversed line scan
only ever decodes one line at a time, and the whole-text fallback chokes on
the banner.  And a text with no brackets produces `none` as well (third
conjunct): there is no `ExtractionError` anywhere in the sources, failure
is a printed message and a `None` return. -/
theorem claim_C1_counterexample :
    extract_payload ("INFO: starting\x0a\x7b\x0a \x22a\x22: 1\x0a\x7d\x0a") = none
    ∧ jsonLoadsPy ("\x7b\x0a \x22a\x22: 1\x0a\x7d") = some (.obj [(.str ("a"), .num 1)])
    ∧ extract_payload ("no json here") = none := ⟨rfl, rfl, rfl⟩

/-- C1 (amended): the extraction step of `run_wlst` succeeds exactly on
single-line embedded documents: when some line of the output strips to a
decodable text starting with a bracket and every later line fails that
test, extraction returns that line's decoded value; pretty-printed
multi-line JSON preceded by noise is not recovered; and output containing
no `json` bracket characters that does not itself decode yields no payload
(a logged failure returning `None`) rather than raising an
`ExtractionError`. -/
theorem claim_C1_theorem :
    (∀ (payload : String) (pre post : List String) (line : String) (v : Json),
      splitLinesPy payload = pre ++ line :: post →
      startsBracket (pyStripS line) = true →
      jsonLoadsPy (pyStripS line) = some v →
      (∀ l ∈ post, startsBracket (pyStripS l) = false ∨ jsonLoadsPy (pyStripS l) = none) →
      extract_payload payload = some v)
    ∧ (∀ payload : String,
      (∀ c ∈ payload.data, c ≠ Char.ofNat 123 ∧ c ≠ Char.ofNat 91) →
      jsonLoadsPy payload = none →
      extract_payload payload = none) := by
  constructor
  · intro payload pre post line v hsplit hb hj hpost
    rw [extract_payload, hsplit]
    have hrev : (pre ++ line :: post).reverse = post.reverse ++ line :: pre.reverse := by
      simp
    rw [hrev]
    rw [scanLines_skip post.reverse
      (fun l hl => hpost l (List.mem_reverse.mp hl)) (line :: pre.reverse)]
    rw [scanLines]
    simp only [hb, if_true, hj]
  · intro payload hchars hloads
    rw [extract_payload]
    have hscan : ∀ l ∈ (splitLinesPy payload).reverse,
        startsBracket (pyStripS l) = false ∨ jsonLoadsPy (pyStripS l) = none := by
      intro l hl
      left
      by_cases hbr : startsBracket (pyStripS l) = true
      · exfalso
        have hmem : ∀ c ∈ (pyStripS l).data, c ∈ payload.data := by
          intro c hc
          have hcl : c ∈ l.data := mem_of_mem_strip l c hc
          rw [List.mem_reverse] at hl
          rw [splitLinesPy] at hl
          cases hdata : payload.data with
          | nil => rw [hdata] at hl; simp at hl
          | cons a rest =>
            rw [hdata] at hl
            simp only [List.mem_map] at hl
            obtain ⟨l', hl', hlm⟩ := hl
            have := splitGo_chars (a :: rest) [] l' hl' c (by
              subst hlm
              simpa using hcl)
            rcases this with hin | hin
            · simp at hin
            · exact hin
        rcases startsBracket_char (pyStripS l) hbr with hin | hin
        · exact (hchars _ (hmem _ hin)).1 rfl
        · exact (hchars _ (hmem _ hin)).2 rfl
      · simpa using hbr
    have hnone : scanLines ((splitLinesPy payload).reverse) = none := by
      have h := scanLines_skip ((splitLinesPy payload).reverse) hscan []
      simpa [scanLines] using h
    rw [hnone]
    exact hloads

/-- Witness for C1: a banner line, a single-line JSON object and a trailing
noise line extract to the embedded document; a bracket-free text yields no
payload. -/
theorem claim_C1_witness :
    extract_payload ("LOG banner\x0a\x7b\x22a\x22: 1\x7d\x0atrailing text")
      = some (.obj [(.str ("a"), .num 1)])
    ∧ extract_payload ("no json here") = none := by
  constructor
  · exact claim_C1_theorem.1 ("LOG banner\x0a\x7b\x22a\x22: 1\x7d\x0atrailing text")
      ["LOG banner"] ["trailing text"] ("\x7b\x22a\x22: 1\x7d")
      (.obj [(.str ("a"), .num 1)]) rfl rfl rfl
      (by
        intro l hl
        simp only [List.mem_singleton] at hl
        subst hl
        left
        rfl)
  · exact claim_C1_theorem.2 ("no json here") (by decide) rfl
